import Mathlib

/-!
Verification development for the taskweb core engine.

This file gives a shallow embedding of the task-action and period-accounting
engine (`core/services/task_actions.py`, `core/services/periods.py`, data
model from `core/models.py`) and proves/refutes the frozen specification
claims about it.

Modelling conventions:
* `Decimal` values (gold amounts, habit counts, bonus percents) are embedded
  as `ℚ`.  `Decimal.quantize(Decimal("0.01"))` with the default
  `ROUND_HALF_EVEN` context is embedded as `to_cents` below.  The
  `full_clean` digit cap (`DecimalValidator(max_digits=12,
  decimal_places=2)`, run by `_save_task_profile_log` on every save) is
  embedded as `decimal12_ok` and modelled in `habit_increment`, whose `by`
  argument feeds a saved decimal directly; in the other actions the cap is
  not modelled (their theorems are conditional on success or concern guards
  raised before any save) and amounts are otherwise unbounded.
* Python `datetime.date` is embedded as a `Date` structure over unbounded
  proleptic-Gregorian years (no year-1..9999 range clamp).  `date`
  subtraction/`timedelta` addition is modelled through the rata-die count
  `Date.toRD`; Python date comparison (chronological order) is modelled by
  comparing rata-die counts.  Python `//` and `%` on integers are floor
  division and nonnegative remainder, i.e. `Int.ediv`/`Int.emod`, which is
  exactly `/`/`%` on `Int` here.
* Timestamps are only ever consulted through their local calendar date
  (`local_date_from_dt`, `timezone.localtime(..).date()`), so they are
  embedded directly as the `Date` they resolve to.
* A Django transaction that raises `ValidationError` commits nothing, so
  each action is a pure function `State → Except Err State`: an `.error`
  result leaves the state untouched by construction.
-/

/-! ## Ledger ops: rounding to cents (round-half-even), `core/services/task_actions.py` `_to_cents` -/

/-- Round-half-even to the nearest integer, the rounding used by
`Decimal.quantize` under the default context. -/
def roundHalfEven (q : ℚ) : ℤ :=
  let f := ⌊q⌋
  if q - f < 1/2 then f
  else if (1:ℚ)/2 < q - f then f + 1
  else if Even f then f else f + 1

/-- `_to_cents(value) = value.quantize(Decimal("0.01"))`: round-half-even to
two fractional digits. -/
def to_cents (q : ℚ) : ℚ := (roundHalfEven (100 * q) : ℚ) / 100

/-- `q` is an exact multiple of a cent (what any stored 2-dp `DecimalField`
value satisfies). -/
def IsCents (q : ℚ) : Prop := ((⌊100 * q⌋ : ℚ) = 100 * q)

instance (q : ℚ) : Decidable (IsCents q) := by unfold IsCents; infer_instance

theorem isCents_iff {q : ℚ} : IsCents q ↔ ∃ n : ℤ, 100 * q = (n : ℚ) := by
  constructor
  · intro h; exact ⟨⌊100 * q⌋, h.symm⟩
  · rintro ⟨n, hn⟩
    unfold IsCents
    rw [hn, Int.floor_intCast]

theorem roundHalfEven_intCast (n : ℤ) : roundHalfEven (n : ℚ) = n := by
  unfold roundHalfEven
  rw [Int.floor_intCast]
  norm_num

theorem to_cents_of_isCents {q : ℚ} (h : IsCents q) : to_cents q = q := by
  rcases isCents_iff.mp h with ⟨n, hn⟩
  unfold to_cents
  rw [hn, roundHalfEven_intCast]
  field_simp at hn ⊢
  linarith

theorem isCents_to_cents (q : ℚ) : IsCents (to_cents q) := by
  apply isCents_iff.mpr
  refine ⟨roundHalfEven (100 * q), ?_⟩
  unfold to_cents
  field_simp

theorem isCents_add {a b : ℚ} (ha : IsCents a) (hb : IsCents b) : IsCents (a + b) := by
  rcases isCents_iff.mp ha with ⟨m, hm⟩
  rcases isCents_iff.mp hb with ⟨n, hn⟩
  apply isCents_iff.mpr
  exact ⟨m + n, by push_cast; linarith⟩

theorem isCents_zero : IsCents 0 := by
  apply isCents_iff.mpr
  exact ⟨0, by norm_num⟩

/-- Adding two cent-exact amounts needs no rounding: `to_cents (a + b) = a + b`. -/
theorem to_cents_add_of_isCents {a b : ℚ} (ha : IsCents a) (hb : IsCents b) :
    to_cents (a + b) = a + b :=
  to_cents_of_isCents (isCents_add ha hb)

/-- Django's `DecimalValidator(max_digits=12, decimal_places=2)` (run by
`full_clean` on every `DecimalField(max_digits=12, decimal_places=2)`) on a
cents-quantized value: a `_to_cents` output has `Decimal` exponent −2, so the
validator's digit count is the length of the coefficient `100*q`, and the
value passes iff that coefficient has at most 12 digits, i.e.
`|100*q| < 10^12`. -/
def decimal12_ok (q : ℚ) : Prop := |100 * q| < 10 ^ 12

instance (q : ℚ) : Decidable (decimal12_ok q) := by unfold decimal12_ok; infer_instance

/-! ## Calendar dates

A proleptic-Gregorian calendar date, embedding Python `datetime.date`
(year unbounded; Python's year 1..9999 clamp is not modelled). -/

structure Date where
  year : Int
  month : Int
  day : Int
deriving DecidableEq, Repr

/-- Gregorian leap year, as Python's `calendar`/`datetime` define it. -/
def Date.IsLeap (y : Int) : Prop := (y % 4 = 0 ∧ y % 100 ≠ 0) ∨ y % 400 = 0

instance (y : Int) : Decidable (Date.IsLeap y) := by unfold Date.IsLeap; infer_instance

/-- 1 in a leap year, 0 otherwise. -/
def Date.leapOffset (y : Int) : Int := if Date.IsLeap y then 1 else 0

def Date.daysInMonth (y m : Int) : Int :=
  if m = 2 then 28 + Date.leapOffset y
  else if m = 4 ∨ m = 6 ∨ m = 9 ∨ m = 11 then 30
  else 31

/-- Days in year `y` strictly before the first of month `m`. -/
def Date.daysBeforeMonth (y m : Int) : Int :=
  if m ≤ 1 then 0
  else if m ≤ 2 then 31
  else if m ≤ 3 then 59 + Date.leapOffset y
  else if m ≤ 4 then 90 + Date.leapOffset y
  else if m ≤ 5 then 120 + Date.leapOffset y
  else if m ≤ 6 then 151 + Date.leapOffset y
  else if m ≤ 7 then 181 + Date.leapOffset y
  else if m ≤ 8 then 212 + Date.leapOffset y
  else if m ≤ 9 then 243 + Date.leapOffset y
  else if m ≤ 10 then 273 + Date.leapOffset y
  else if m ≤ 11 then 304 + Date.leapOffset y
  else 334 + Date.leapOffset y

/-- Rata die: day count with `0001-01-01 = 1`.  `d2 - d1` in Python is
`timedelta(days = d2.toRD - d1.toRD)`. -/
def Date.toRD (d : Date) : Int :=
  365 * (d.year - 1) + (d.year - 1) / 4 - (d.year - 1) / 100 + (d.year - 1) / 400
    + Date.daysBeforeMonth d.year d.month + d.day

/-- The date is a real calendar date (Python would accept the components). -/
def Date.Valid (d : Date) : Prop :=
  1 ≤ d.month ∧ d.month ≤ 12 ∧ 1 ≤ d.day ∧ d.day ≤ Date.daysInMonth d.year d.month

instance (d : Date) : Decidable d.Valid := by unfold Date.Valid; infer_instance

/-- Chronological order (how Python compares dates). -/
instance : LT Date := ⟨fun a b => a.toRD < b.toRD⟩

instance : LE Date := ⟨fun a b => a.toRD ≤ b.toRD⟩

instance (a b : Date) : Decidable (a < b) := inferInstanceAs (Decidable (a.toRD < b.toRD))

instance (a b : Date) : Decidable (a ≤ b) := inferInstanceAs (Decidable (a.toRD ≤ b.toRD))

theorem Date.lt_def {a b : Date} : a < b ↔ a.toRD < b.toRD := Iff.rfl

theorem Date.le_def {a b : Date} : a ≤ b ↔ a.toRD ≤ b.toRD := Iff.rfl

/-- Next calendar day. -/
def Date.succDay (d : Date) : Date :=
  if d.day < Date.daysInMonth d.year d.month then ⟨d.year, d.month, d.day + 1⟩
  else if d.month < 12 then ⟨d.year, d.month + 1, 1⟩
  else ⟨d.year + 1, 1, 1⟩

/-- Previous calendar day. -/
def Date.predDay (d : Date) : Date :=
  if 1 < d.day then ⟨d.year, d.month, d.day - 1⟩
  else if 1 < d.month then ⟨d.year, d.month - 1, Date.daysInMonth d.year (d.month - 1)⟩
  else ⟨d.year - 1, 12, 31⟩

def Date.succDays : Nat → Date → Date
  | 0, d => d
  | n + 1, d => Date.succDays n d.succDay

def Date.predDays : Nat → Date → Date
  | 0, d => d
  | n + 1, d => Date.predDays n d.predDay

/-- `d + timedelta(days=n)` for a possibly negative `n`. -/
def Date.addDays (d : Date) (n : Int) : Date :=
  if 0 ≤ n then Date.succDays n.toNat d else Date.predDays (-n).toNat d

theorem Date.addDays_zero (d : Date) : d.addDays 0 = d := rfl

theorem Date.leapOffset_bounds (y : Int) : 0 ≤ Date.leapOffset y ∧ Date.leapOffset y ≤ 1 := by
  unfold Date.leapOffset
  split_ifs <;> omega

theorem Date.one_le_daysInMonth (y m : Int) : 1 ≤ Date.daysInMonth y m := by
  have := Date.leapOffset_bounds y
  unfold Date.daysInMonth
  split_ifs <;> omega

theorem Date.daysInMonth_le (y m : Int) : Date.daysInMonth y m ≤ 31 := by
  have := Date.leapOffset_bounds y
  unfold Date.daysInMonth
  split_ifs <;> omega

theorem Date.daysBeforeMonth_succ (y m : Int) (h1 : 1 ≤ m) (h2 : m ≤ 11) :
    Date.daysBeforeMonth y (m + 1) = Date.daysBeforeMonth y m + Date.daysInMonth y m := by
  have := Date.leapOffset_bounds y
  interval_cases m <;>
    simp only [Date.daysBeforeMonth, Date.daysInMonth] <;> norm_num <;> omega

theorem Date.daysBeforeMonth_one (y : Int) : Date.daysBeforeMonth y 1 = 0 := by
  simp [Date.daysBeforeMonth]

theorem Date.daysBeforeMonth_twelve (y : Int) :
    Date.daysBeforeMonth y 12 = 334 + Date.leapOffset y := by
  simp [Date.daysBeforeMonth]

theorem Date.daysInMonth_twelve (y : Int) : Date.daysInMonth y 12 = 31 := by
  simp [Date.daysInMonth]

/-- The year-boundary leap identity: the increment of the leap-day count from
`y - 1` to `y` is 1 exactly in leap years. -/
theorem Date.leapCount_step (y : Int) :
    y / 4 - y / 100 + y / 400
      = (y - 1) / 4 - (y - 1) / 100 + (y - 1) / 400 + Date.leapOffset y := by
  unfold Date.leapOffset Date.IsLeap
  split_ifs <;> omega

theorem Date.succDay_toRD {d : Date} (h : d.Valid) :
    (d.succDay).toRD = d.toRD + 1 ∧ (d.succDay).Valid := by
  obtain ⟨h1, h2, h3, h4⟩ := h
  unfold Date.succDay
  split_ifs with hd hm
  · refine ⟨?_, h1, h2, by dsimp only; omega, by dsimp only; omega⟩
    unfold Date.toRD
    dsimp only
    omega
  · have hb := Date.daysBeforeMonth_succ d.year d.month h1 (by omega)
    have hone := Date.one_le_daysInMonth d.year (d.month + 1)
    refine ⟨?_, by dsimp only; omega, by dsimp only; omega, by dsimp only; omega,
      by dsimp only; exact hone⟩
    unfold Date.toRD
    dsimp only
    omega
  · have hm12 : d.month = 12 := by omega
    have h31 : d.day = 31 := by
      rw [hm12] at h4 hd
      have := Date.daysInMonth_twelve d.year
      omega
    have hone : (1 : Int) ≤ Date.daysInMonth (d.year + 1) 1 := Date.one_le_daysInMonth _ _
    refine ⟨?_, by norm_num, by norm_num, by norm_num, by dsimp only; exact hone⟩
    unfold Date.toRD
    dsimp only
    rw [hm12, h31, Date.daysBeforeMonth_twelve, Date.daysBeforeMonth_one]
    have hstep := Date.leapCount_step d.year
    omega

theorem Date.predDay_toRD {d : Date} (h : d.Valid) :
    (d.predDay).toRD = d.toRD - 1 ∧ (d.predDay).Valid := by
  obtain ⟨h1, h2, h3, h4⟩ := h
  unfold Date.predDay
  split_ifs with hd hm
  · refine ⟨?_, h1, h2, by dsimp only; omega, by dsimp only; omega⟩
    unfold Date.toRD
    dsimp only
    omega
  · have hb := Date.daysBeforeMonth_succ d.year (d.month - 1) (by omega) (by omega)
    rw [show d.month - 1 + 1 = d.month by ring] at hb
    have hone := Date.one_le_daysInMonth d.year (d.month - 1)
    refine ⟨?_, by dsimp only; omega, by dsimp only; omega, by dsimp only; exact hone,
      by dsimp only; omega⟩
    unfold Date.toRD
    dsimp only
    omega
  · have hm1 : d.month = 1 := by omega
    have hd1 : d.day = 1 := by omega
    have h31 : Date.daysInMonth (d.year - 1) 12 = 31 := Date.daysInMonth_twelve _
    refine ⟨?_, by norm_num, by norm_num, by norm_num, by dsimp only; omega⟩
    unfold Date.toRD
    dsimp only
    rw [hm1, hd1, Date.daysBeforeMonth_one, Date.daysBeforeMonth_twelve]
    have hstep := Date.leapCount_step (d.year - 1)
    rw [show d.year - 1 - 1 = d.year - 2 by ring] at hstep
    omega

theorem Date.succDays_toRD {d : Date} (h : d.Valid) (n : Nat) :
    (Date.succDays n d).toRD = d.toRD + n ∧ (Date.succDays n d).Valid := by
  induction n generalizing d with
  | zero => simpa [Date.succDays] using h
  | succ k ih =>
    obtain ⟨hrd, hv⟩ := Date.succDay_toRD h
    obtain ⟨ihrd, ihv⟩ := ih hv
    refine ⟨?_, ihv⟩
    simp only [Date.succDays, ihrd, hrd]
    push_cast
    ring

theorem Date.predDays_toRD {d : Date} (h : d.Valid) (n : Nat) :
    (Date.predDays n d).toRD = d.toRD - n ∧ (Date.predDays n d).Valid := by
  induction n generalizing d with
  | zero => simpa [Date.predDays] using h
  | succ k ih =>
    obtain ⟨hrd, hv⟩ := Date.predDay_toRD h
    obtain ⟨ihrd, ihv⟩ := ih hv
    refine ⟨?_, ihv⟩
    simp only [Date.predDays, ihrd, hrd]
    push_cast
    ring

theorem Date.addDays_toRD {d : Date} (h : d.Valid) (n : Int) :
    (d.addDays n).toRD = d.toRD + n ∧ (d.addDays n).Valid := by
  unfold Date.addDays
  split
  · rename_i hn
    have := Date.succDays_toRD h n.toNat
    rwa [Int.toNat_of_nonneg hn] at this
  · rename_i hn
    have := Date.predDays_toRD h (-n).toNat
    rw [Int.toNat_of_nonneg (by omega)] at this
    constructor
    · rw [this.1]; ring
    · exact this.2

theorem Date.addDays_valid {d : Date} (h : d.Valid) (n : Int) : (d.addDays n).Valid :=
  (Date.addDays_toRD h n).2

set_option maxHeartbeats 1600000 in
theorem Date.daysBeforeMonth_bounds (y m : Int) :
    0 ≤ Date.daysBeforeMonth y m ∧ Date.daysBeforeMonth y m ≤ 334 + Date.leapOffset y := by
  have := Date.leapOffset_bounds y
  unfold Date.daysBeforeMonth
  split_ifs <;> omega

theorem Date.daysBeforeMonth_strictMono (y : Int) {m1 m2 : Int} (h1 : 1 ≤ m1) (h : m1 < m2)
    (h2 : m2 ≤ 12) : Date.daysBeforeMonth y m1 < Date.daysBeforeMonth y m2 := by
  have key : ∀ n : Int, m1 + 1 ≤ n → (n ≤ 12 → Date.daysBeforeMonth y m1 < Date.daysBeforeMonth y n) := by
    refine @Int.le_induction
      (fun n => n ≤ 12 → Date.daysBeforeMonth y m1 < Date.daysBeforeMonth y n) (m1 + 1) ?_ ?_
    · intro h12
      have hb := Date.daysBeforeMonth_succ y m1 h1 (by omega)
      have hd := Date.one_le_daysInMonth y m1
      omega
    · intro n hn ih h12
      have hb := Date.daysBeforeMonth_succ y n (by omega) (by omega)
      have hprev := ih (by omega)
      have hd := Date.one_le_daysInMonth y n
      omega
  exact key m2 (by omega) h2

/-- The running leap-day count is monotone in the year. -/
theorem Date.leapCount_mono {a b : Int} (h : a ≤ b) :
    a / 4 - a / 100 + a / 400 ≤ b / 4 - b / 100 + b / 400 := by
  refine @Int.le_induction
    (fun z => a / 4 - a / 100 + a / 400 ≤ z / 4 - z / 100 + z / 400) a ?_ ?_ b h
  · omega
  · intro n hn ih
    omega

/-- Chronological comparison of month starts is the comparison of month
indices `12 * year + month`. -/
theorem Date.toRD_monthStart_lt {y1 m1 y2 m2 : Int}
    (hm1a : 1 ≤ m1) (hm1b : m1 ≤ 12) (hm2a : 1 ≤ m2) (hm2b : m2 ≤ 12)
    (hidx : 12 * y1 + m1 < 12 * y2 + m2) :
    (⟨y1, m1, 1⟩ : Date).toRD < (⟨y2, m2, 1⟩ : Date).toRD := by
  unfold Date.toRD
  dsimp only
  rcases lt_or_eq_of_le (show y1 ≤ y2 by omega) with hy | hy
  · have hL := Date.leapCount_mono (show y1 - 1 ≤ y2 - 1 by omega)
    have hb1 := Date.daysBeforeMonth_bounds y1 m1
    have hb2 := Date.daysBeforeMonth_bounds y2 m2
    have hlo := Date.leapOffset_bounds y1
    omega
  · subst hy
    have := Date.daysBeforeMonth_strictMono y1 hm1a (show m1 < m2 by omega) hm2b
    omega

/-- One iteration stack for the `while month <= 0` loop of
`previous_daily_period_start` (month arithmetic); the fuel argument
dominates the number of iterations actually used. -/
def Date.fixMonthLoop : Nat → Int → Int → Int × Int
  | 0, y, m => (y, m)
  | fuel + 1, y, m => if m ≤ 0 then Date.fixMonthLoop fuel (y - 1) (m + 12) else (y, m)

/-- `month = m; year = y; while month <= 0: month += 12; year -= 1`. -/
def Date.normalizeYearMonth (y m : Int) : Int × Int := Date.fixMonthLoop (1 - m).toNat y m

theorem Date.fixMonthLoop_spec :
    ∀ (fuel : Nat) (y m : Int), 1 - m ≤ (fuel : Int) →
      12 * (Date.fixMonthLoop fuel y m).1 + (Date.fixMonthLoop fuel y m).2 = 12 * y + m ∧
      1 ≤ (Date.fixMonthLoop fuel y m).2 ∧
      (m ≤ 12 → (Date.fixMonthLoop fuel y m).2 ≤ 12)
  | 0, y, m, h => by
    push_cast at h
    dsimp only [Date.fixMonthLoop]
    omega
  | fuel + 1, y, m, h => by
    push_cast at h
    dsimp only [Date.fixMonthLoop]
    split_ifs with hm
    · have ih := Date.fixMonthLoop_spec fuel (y - 1) (m + 12) (by push_cast; omega)
      refine ⟨by omega, ih.2.1, fun _ => ih.2.2 (by omega)⟩
    · dsimp only
      omega

theorem Date.normalizeYearMonth_spec (y m : Int) :
    12 * (Date.normalizeYearMonth y m).1 + (Date.normalizeYearMonth y m).2 = 12 * y + m ∧
    1 ≤ (Date.normalizeYearMonth y m).2 ∧
    (m ≤ 12 → (Date.normalizeYearMonth y m).2 ≤ 12) :=
  Date.fixMonthLoop_spec (1 - m).toNat y m (by omega)

/-! ## Period resolver (`core/services/periods.py`) -/

/-- `Task.Cadence` (`core/models.py`): the `TextChoices` enum; the resolver
functions treat a `None` cadence identically to `"never"` (the fallthrough
branch), so both are embedded as `.never` at resolver level. -/
inductive Cadence where
  | never
  | day
  | week
  | month
  | year
deriving DecidableEq, Repr

/-- Python `date.weekday()` (Monday = 0), expressed through the rata-die
count: `0001-01-01` (rata die 1) is a Monday. -/
def Date.weekday (d : Date) : Int := (d.toRD - 1) % 7

/-- `_monday_start(value) = value - timedelta(days=value.weekday())`. -/
def monday_start (value : Date) : Date := value.addDays (-(value.weekday))

/-- `daily_period_start(target_date, cadence, repeat_every, anchor_date)`. -/
def daily_period_start (target_date : Date) (cadence : Cadence) (repeat_every : Nat)
    (anchor_date : Date) : Date :=
  let interval : Int := max 1 (repeat_every : Int)
  match cadence with
  | .day =>
    let days_diff := max 0 (target_date.toRD - anchor_date.toRD)
    anchor_date.addDays ((days_diff / interval) * interval)
  | .week =>
    let current_start := monday_start target_date
    let anchor_start := monday_start anchor_date
    let weeks_diff := max 0 ((current_start.toRD - anchor_start.toRD) / 7)
    anchor_start.addDays (((weeks_diff / interval) * interval) * 7)
  | .month =>
    let anchor_month_idx := anchor_date.year * 12 + anchor_date.month - 1
    let current_month_idx := target_date.year * 12 + target_date.month - 1
    let months_diff := max 0 (current_month_idx - anchor_month_idx)
    let period_idx := (months_diff / interval) * interval
    let target_idx := anchor_month_idx + period_idx
    ⟨target_idx / 12, target_idx % 12 + 1, 1⟩
  | .year =>
    let years_diff := max 0 (target_date.year - anchor_date.year)
    ⟨anchor_date.year + (years_diff / interval) * interval, 1, 1⟩
  | .never => target_date

/-- `previous_daily_period_start(current_period_start, cadence, repeat_every)`. -/
def previous_daily_period_start (current_period_start : Date) (cadence : Cadence)
    (repeat_every : Nat) : Date :=
  let interval : Int := max 1 (repeat_every : Int)
  match cadence with
  | .day => current_period_start.addDays (-interval)
  | .week => current_period_start.addDays (-(7 * interval))
  | .month =>
    let p := Date.normalizeYearMonth current_period_start.year
      (current_period_start.month - interval)
    ⟨p.1, p.2, 1⟩
  | .year => ⟨current_period_start.year - interval, 1, 1⟩
  | .never => current_period_start

/-- `habit_reset_period_start(target_date, cadence)`. -/
def habit_reset_period_start (target_date : Date) (cadence : Cadence) : Date :=
  match cadence with
  | .day => target_date
  | .week => monday_start target_date
  | .month => ⟨target_date.year, target_date.month, 1⟩
  | .year => ⟨target_date.year, 1, 1⟩
  | .never => target_date

theorem monday_start_toRD {d : Date} (h : d.Valid) :
    (monday_start d).toRD = d.toRD - (d.toRD - 1) % 7 ∧ (monday_start d).Valid := by
  unfold monday_start Date.weekday
  have := Date.addDays_toRD h (-((d.toRD - 1) % 7))
  exact ⟨by omega, this.2⟩

/-- A date already on a Monday is fixed by `_monday_start`. -/
theorem monday_start_fixed {d : Date} (hw : (d.toRD - 1) % 7 = 0) : monday_start d = d := by
  unfold monday_start Date.weekday
  rw [hw, neg_zero, Date.addDays_zero]

/-- Day-bucket offsets produced by `daily_period_start` are nonnegative
multiples of the interval, and re-bucketing them is the identity. -/
theorem bucket_cancel (x I : Int) (hI : 0 < I) :
    0 ≤ (max 0 x / I) * I ∧ (((max 0 x / I) * I) / I) * I = (max 0 x / I) * I := by
  constructor
  · exact mul_nonneg (Int.ediv_nonneg (le_max_left 0 x) hI.le) hI.le
  · rw [Int.mul_ediv_cancel _ hI.ne']

theorem dps_day_roundtrip (D A : Date) (N : Nat) (hA : A.Valid) :
    daily_period_start (daily_period_start D .day N A) .day N A
        = daily_period_start D .day N A ∧
      previous_daily_period_start (daily_period_start D .day N A) .day N
        < daily_period_start D .day N A := by
  have hI : (0:Int) < max 1 (N : Int) := lt_of_lt_of_le one_pos (le_max_left _ _)
  obtain ⟨hk0, hkc⟩ := bucket_cancel (D.toRD - A.toRD) (max 1 (N : Int)) hI
  dsimp only [daily_period_start, previous_daily_period_start]
  obtain ⟨hrd, hval⟩ := Date.addDays_toRD hA ((max 0 (D.toRD - A.toRD) / max 1 (N:Int)) * max 1 (N:Int))
  constructor
  · rw [hrd]
    congr 1
    rw [show A.toRD + max 0 (D.toRD - A.toRD) / max 1 (N:Int) * max 1 (N:Int) - A.toRD
          = max 0 (D.toRD - A.toRD) / max 1 (N:Int) * max 1 (N:Int) by ring,
        max_eq_right hk0]
    exact hkc
  · rw [Date.lt_def, (Date.addDays_toRD hval _).1]
    omega

theorem dps_week_roundtrip (D A : Date) (N : Nat) (hD : D.Valid) (hA : A.Valid) :
    daily_period_start (daily_period_start D .week N A) .week N A
        = daily_period_start D .week N A ∧
      previous_daily_period_start (daily_period_start D .week N A) .week N
        < daily_period_start D .week N A := by
  have hI : (0:Int) < max 1 (N : Int) := lt_of_lt_of_le one_pos (le_max_left _ _)
  obtain ⟨hAs, hAv⟩ := monday_start_toRD hA
  obtain ⟨hDs, hDv⟩ := monday_start_toRD hD
  obtain ⟨hk0, hkc⟩ := bucket_cancel (((monday_start D).toRD - (monday_start A).toRD) / 7)
    (max 1 (N : Int)) hI
  dsimp only [daily_period_start, previous_daily_period_start]
  obtain ⟨hrd, hval⟩ := Date.addDays_toRD hAv
    ((max 0 (((monday_start D).toRD - (monday_start A).toRD) / 7) / max 1 (N:Int) * max 1 (N:Int)) * 7)
  have hmod : (A.toRD - (A.toRD - 1) % 7 - 1) % 7 = 0 := by omega
  have hwfix : monday_start (Date.addDays (monday_start A)
      ((max 0 (((monday_start D).toRD - (monday_start A).toRD) / 7) / max 1 (N:Int) * max 1 (N:Int)) * 7))
        = Date.addDays (monday_start A)
      ((max 0 (((monday_start D).toRD - (monday_start A).toRD) / 7) / max 1 (N:Int) * max 1 (N:Int)) * 7) := by
    apply monday_start_fixed
    rw [hrd, hAs]
    omega
  constructor
  · rw [hwfix]
    congr 1
    rw [hrd]
    rw [show (monday_start A).toRD
          + max 0 (((monday_start D).toRD - (monday_start A).toRD) / 7) / max 1 (N:Int) * max 1 (N:Int) * 7
          - (monday_start A).toRD
          = max 0 (((monday_start D).toRD - (monday_start A).toRD) / 7) / max 1 (N:Int) * max 1 (N:Int) * 7
        by ring]
    rw [Int.mul_ediv_cancel _ (by norm_num : (7:Int) ≠ 0), max_eq_right hk0, hkc]
  · rw [Date.lt_def, (Date.addDays_toRD hval _).1]
    omega

theorem dps_month_roundtrip (D A : Date) (N : Nat) :
    daily_period_start (daily_period_start D .month N A) .month N A
        = daily_period_start D .month N A ∧
      previous_daily_period_start (daily_period_start D .month N A) .month N
        < daily_period_start D .month N A := by
  have hI : (0:Int) < max 1 (N : Int) := lt_of_lt_of_le one_pos (le_max_left _ _)
  obtain ⟨hP0, hPc⟩ := bucket_cancel
    ((D.year * 12 + D.month - 1) - (A.year * 12 + A.month - 1)) (max 1 (N : Int)) hI
  dsimp only [daily_period_start, previous_daily_period_start]
  set I := max 1 (N : Int)
  set aidx := A.year * 12 + A.month - 1
  set tidx0 := D.year * 12 + D.month - 1
  set P := max 0 (tidx0 - aidx) / I * I
  have hP2 : max 0 ((aidx + P) / 12 * 12 + ((aidx + P) % 12 + 1) - 1 - aidx) / I * I = P := by
    rw [show (aidx + P) / 12 * 12 + ((aidx + P) % 12 + 1) - 1 - aidx = P by omega,
      max_eq_right hP0, hPc]
  constructor
  · rw [hP2]
  · obtain ⟨hidx, hm1, hm2⟩ := Date.normalizeYearMonth_spec ((aidx + P) / 12)
      ((aidx + P) % 12 + 1 - I)
    rw [Date.lt_def]
    exact Date.toRD_monthStart_lt hm1 (hm2 (by omega)) (by omega) (by omega) (by omega)

theorem dps_year_roundtrip (D A : Date) (N : Nat) :
    daily_period_start (daily_period_start D .year N A) .year N A
        = daily_period_start D .year N A ∧
      previous_daily_period_start (daily_period_start D .year N A) .year N
        < daily_period_start D .year N A := by
  have hI : (0:Int) < max 1 (N : Int) := lt_of_lt_of_le one_pos (le_max_left _ _)
  obtain ⟨hP0, hPc⟩ := bucket_cancel (D.year - A.year) (max 1 (N : Int)) hI
  dsimp only [daily_period_start, previous_daily_period_start]
  set I := max 1 (N : Int)
  set P := max 0 (D.year - A.year) / I * I
  have hP2 : max 0 (A.year + P - A.year) / I * I = P := by
    rw [show A.year + P - A.year = P by ring, max_eq_right hP0, hPc]
  constructor
  · rw [hP2]
  · rw [Date.lt_def]
    exact Date.toRD_monthStart_lt (by omega) (by omega) (by omega) (by omega) (by omega)

/-- C8: period resolver round-trip, on any real cadence (`day`/`week`/`month`/
`year`; a `"never"`/`None` cadence falls through to the identity, for which
"previous" is not strictly earlier, and is excluded just as the spec's §4.1
cadence list excludes it).  `daily_period_start` is idempotent on its own
output, and `previous_daily_period_start` of the output is strictly earlier. -/
theorem C8_period_resolver_roundtrip (D A : Date) (c : Cadence) (N : Nat)
    (hD : D.Valid) (hA : A.Valid) (hN : 1 ≤ N) (hc : c ≠ .never) :
    daily_period_start (daily_period_start D c N A) c N A = daily_period_start D c N A ∧
      previous_daily_period_start (daily_period_start D c N A) c N
        < daily_period_start D c N A := by
  cases c with
  | never => exact absurd rfl hc
  | day => exact dps_day_roundtrip D A N hA
  | week => exact dps_week_roundtrip D A N hD hA
  | month => exact dps_month_roundtrip D A N
  | year => exact dps_year_roundtrip D A N

/-- Witness for C8 at a concrete instance (week cadence, `repeat_every = 2`). -/
theorem C8_period_resolver_roundtrip_witness :
    (⟨2024, 3, 15⟩ : Date).Valid ∧ (⟨2024, 1, 10⟩ : Date).Valid ∧ 1 ≤ 2 ∧
      Cadence.week ≠ Cadence.never ∧
      (daily_period_start (daily_period_start ⟨2024, 3, 15⟩ .week 2 ⟨2024, 1, 10⟩) .week 2
          ⟨2024, 1, 10⟩ = daily_period_start ⟨2024, 3, 15⟩ .week 2 ⟨2024, 1, 10⟩ ∧
        previous_daily_period_start
            (daily_period_start ⟨2024, 3, 15⟩ .week 2 ⟨2024, 1, 10⟩) .week 2
          < daily_period_start ⟨2024, 3, 15⟩ .week 2 ⟨2024, 1, 10⟩) :=
  ⟨by decide, by decide, by decide, by decide,
    C8_period_resolver_roundtrip ⟨2024, 3, 15⟩ ⟨2024, 1, 10⟩ .week 2
      (by decide) (by decide) (by decide) (by decide)⟩

namespace Core

/-! ## Data model (`core/models.py`)

Only the fields the core engine reads or writes are embedded.  Django's
auto-managed `updated_at`/`created_at` metadata on saves is not modelled
(no engine logic reads it).  Tasks are identified by their index in the
profile's task list; `id__in`/foreign keys become list indices. -/

inductive TaskType where
  | habit
  | daily
  | todo
  | reward
deriving DecidableEq, Repr

inductive LogType where
  | daily_completed
  | habit_incremented
  | todo_completed
  | reward_claimed
  | activity_duration
deriving DecidableEq, Repr

/-- `StreakBonusRule`: `streak_goal ≥ 1`, `bonus_percent ≥ 0` (2-dp decimal). -/
structure StreakBonusRule where
  streak_goal : Nat
  bonus_percent : ℚ
deriving DecidableEq, Repr

/-- `Task`: the single-table union of habit/daily/todo/reward. -/
structure Task where
  profile_id : Nat
  task_type : TaskType
  title : String
  gold_delta : ℚ
  created_at : Date
  last_action_at : Option Date
  total_actions_count : Nat
  current_count : ℚ
  count_increment : ℚ
  count_reset_cadence : Option Cadence
  repeat_cadence : Option Cadence
  repeat_every : Nat
  current_streak : Nat
  best_streak : Nat
  streak_goal : Nat
  last_completion_period : Option Date
  is_done : Bool
  completed_at : Option Date
  is_repeatable : Bool
  is_claimed : Bool
  claimed_at : Option Date
  claim_count : Nat
  streak_bonus_rules : List StreakBonusRule
deriving DecidableEq, Repr

structure Profile where
  id : Nat
  account_id : Nat
  gold_balance : ℚ
deriving DecidableEq, Repr

/-- `LogEntry`: immutable audit record.  `task`/`reward` references are task
indices.  `user_gold` is the balance after this entry's delta. -/
structure LogEntry where
  timestamp : Date
  type : LogType
  task : Option Nat
  reward : Option Nat
  gold_delta : ℚ
  user_gold : ℚ
  count_delta : Option ℚ
  duration : Option ℚ
  title_snapshot : String
deriving DecidableEq, Repr

/-- One profile's transactional unit of state: the profile row, its tasks,
and its logs (most recent first). -/
structure State where
  profile : Profile
  tasks : List Task
  logs : List LogEntry
deriving DecidableEq, Repr

/-- The distinct `ValidationError`s the engine raises. -/
inductive Err where
  | not_found
  | task_not_in_profile
  | profile_not_owned
  | wrong_task_type
  | already_completed_period
  | todo_already_completed
  | reward_cost_not_negative
  | reward_already_claimed
  | insufficient_funds
  | non_positive_duration
  | blank_title
  | activity_task_wrong_profile
  | activity_reward_wrong_profile
  | activity_reward_not_reward
  | decimal_out_of_range
deriving DecidableEq, Repr

/-! ## Task action engine (`core/services/task_actions.py`) -/

/-- `_get_daily_period_start_for_task`: bucket `target_date` by the task's
cadence (`None`/empty falls back to `DAY`), `repeat_every`, and the task's
creation date as anchor. -/
def get_daily_period_start_for_task (t : Task) (target_date : Date) : Date :=
  daily_period_start target_date (t.repeat_cadence.getD .day) t.repeat_every t.created_at

/-- The streak-bonus lookup of `daily_complete`:
`task.streak_bonus_rules.filter(streak_goal__lte=current_streak)
 .order_by("-bonus_percent").first()` — the qualifying rule with the highest
`bonus_percent`; 0 when no rule qualifies. -/
def selected_bonus_percent (rules : List StreakBonusRule) (current_streak : Nat) : ℚ :=
  match (rules.filter (fun r => decide (r.streak_goal ≤ current_streak))).map
      (fun r => r.bonus_percent) with
  | [] => 0
  | b :: bs => bs.foldl max b

/-- The decimal values `habit_increment` writes, as `full_clean` validates
them in `_save_task_profile_log` (`task.full_clean()` on the new
`current_count`, `profile.full_clean()` on the new balance,
`log.full_clean()` on `gold_delta`/`user_gold`/`count_delta`; `user_gold`
equals the new balance and is not repeated).  Fields the action does not
write were themselves validated when written, so re-checking them is a no-op
on states the engine produces. -/
def habit_save_valid (s : State) (task : Task) (delta_count : ℚ) : Prop :=
  decimal12_ok (to_cents (task.current_count + delta_count)) ∧
  decimal12_ok (to_cents (s.profile.gold_balance + to_cents task.gold_delta)) ∧
  decimal12_ok (to_cents task.gold_delta) ∧
  decimal12_ok (to_cents delta_count)

instance (s : State) (task : Task) (d : ℚ) : Decidable (habit_save_valid s task d) := by
  unfold habit_save_valid; infer_instance

/-- `habit_increment(task=..., profile=..., user=..., by=..., timestamp=...)`.
The final `_save_task_profile_log` runs `full_clean`, whose
`DecimalValidator(max_digits=12, decimal_places=2)` rejects the transaction
when a written decimal overflows the digit cap ([[habit_save_valid]]). -/
def habit_increment (s : State) (taskIdx : Nat) (userId : Nat) (byAmt : Option ℚ)
    (timestamp : Date) : Except Err State :=
  match s.tasks[taskIdx]? with
  | none => .error .not_found
  | some task =>
    if task.profile_id ≠ s.profile.id then .error .task_not_in_profile
    else if s.profile.account_id ≠ userId then .error .profile_not_owned
    else if task.task_type ≠ TaskType.habit then .error .wrong_task_type
    else
      let delta_count := byAmt.getD task.count_increment
      if ¬ habit_save_valid s task delta_count then .error .decimal_out_of_range
      else
        let task2 := { task with
          current_count := to_cents (task.current_count + delta_count)
          total_actions_count := task.total_actions_count + 1
          last_action_at := some timestamp }
        let gold_delta := to_cents task.gold_delta
        let new_balance := to_cents (s.profile.gold_balance + gold_delta)
        let log : LogEntry := {
          timestamp := timestamp
          type := .habit_incremented
          task := some taskIdx
          reward := none
          gold_delta := gold_delta
          user_gold := new_balance
          count_delta := some (to_cents delta_count)
          duration := none
          title_snapshot := task.title }
        .ok { profile := { s.profile with gold_balance := new_balance }
              tasks := s.tasks.set taskIdx task2
              logs := log :: s.logs }

/-- `daily_complete(task=..., profile=..., user=..., timestamp=...,
completion_period=...)`. -/
def daily_complete (s : State) (taskIdx : Nat) (userId : Nat) (timestamp : Date)
    (completion_period : Option Date) : Except Err State :=
  match s.tasks[taskIdx]? with
  | none => .error .not_found
  | some task =>
    if task.profile_id ≠ s.profile.id then .error .task_not_in_profile
    else if s.profile.account_id ≠ userId then .error .profile_not_owned
    else if task.task_type ≠ TaskType.daily then .error .wrong_task_type
    else
      let input_date := completion_period.getD timestamp
      let period := get_daily_period_start_for_task task input_date
      if task.last_completion_period = some period then .error .already_completed_period
      else
        let previous_period := previous_daily_period_start period
          (task.repeat_cadence.getD .day) task.repeat_every
        let new_streak :=
          if task.last_completion_period = some previous_period
          then task.current_streak + 1 else 1
        let task2 := { task with
          current_streak := new_streak
          last_completion_period := some period
          best_streak := max task.best_streak new_streak
          last_action_at := some timestamp
          total_actions_count := task.total_actions_count + 1 }
        let base_gold := to_cents task.gold_delta
        let bonus_percent := selected_bonus_percent task.streak_bonus_rules new_streak
        let final_gold := to_cents (base_gold * (1 + bonus_percent / 100))
        let new_balance := to_cents (s.profile.gold_balance + final_gold)
        let log : LogEntry := {
          timestamp := timestamp
          type := .daily_completed
          task := some taskIdx
          reward := none
          gold_delta := final_gold
          user_gold := new_balance
          count_delta := none
          duration := none
          title_snapshot := task.title }
        .ok { profile := { s.profile with gold_balance := new_balance }
              tasks := s.tasks.set taskIdx task2
              logs := log :: s.logs }

/-- `todo_complete(task=..., profile=..., user=..., timestamp=...)`. -/
def todo_complete (s : State) (taskIdx : Nat) (userId : Nat) (timestamp : Date) :
    Except Err State :=
  match s.tasks[taskIdx]? with
  | none => .error .not_found
  | some task =>
    if task.profile_id ≠ s.profile.id then .error .task_not_in_profile
    else if s.profile.account_id ≠ userId then .error .profile_not_owned
    else if task.task_type ≠ TaskType.todo then .error .wrong_task_type
    else if task.is_done then .error .todo_already_completed
    else
      let task2 := { task with
        is_done := true
        completed_at := some timestamp
        last_action_at := some timestamp
        total_actions_count := task.total_actions_count + 1 }
      let gold_delta := to_cents task.gold_delta
      let new_balance := to_cents (s.profile.gold_balance + gold_delta)
      let log : LogEntry := {
        timestamp := timestamp
        type := .todo_completed
        task := some taskIdx
        reward := none
        gold_delta := gold_delta
        user_gold := new_balance
        count_delta := none
        duration := none
        title_snapshot := task.title }
      .ok { profile := { s.profile with gold_balance := new_balance }
            tasks := s.tasks.set taskIdx task2
            logs := log :: s.logs }

/-- `reward_claim(task=..., profile=..., user=..., timestamp=...)`.  Note the
balance update and the funds check use the raw `task.gold_delta`, while the
logged delta is `to_cents(task.gold_delta)`. -/
def reward_claim (s : State) (taskIdx : Nat) (userId : Nat) (timestamp : Date) :
    Except Err State :=
  match s.tasks[taskIdx]? with
  | none => .error .not_found
  | some task =>
    if task.profile_id ≠ s.profile.id then .error .task_not_in_profile
    else if s.profile.account_id ≠ userId then .error .profile_not_owned
    else if task.task_type ≠ TaskType.reward then .error .wrong_task_type
    else if 0 ≤ task.gold_delta then .error .reward_cost_not_negative
    else if ¬task.is_repeatable ∧ task.is_claimed then .error .reward_already_claimed
    else if to_cents (s.profile.gold_balance + task.gold_delta) < 0 then
      .error .insufficient_funds
    else
      let new_balance := to_cents (s.profile.gold_balance + task.gold_delta)
      let task2 := { task with
        claim_count := task.claim_count + 1
        is_claimed := true
        claimed_at := some timestamp
        last_action_at := some timestamp
        total_actions_count := task.total_actions_count + 1 }
      let gold_delta := to_cents task.gold_delta
      let log : LogEntry := {
        timestamp := timestamp
        type := .reward_claimed
        task := some taskIdx
        reward := some taskIdx
        gold_delta := gold_delta
        user_gold := new_balance
        count_delta := none
        duration := none
        title_snapshot := task.title }
      .ok { profile := { s.profile with gold_balance := new_balance }
            tasks := s.tasks.set taskIdx task2
            logs := log :: s.logs }

/-- The optional `task` cross-reference of `log_activity_duration`: must
resolve and belong to the profile. -/
def resolve_task_ref (s : State) (idx : Option Nat) : Except Err Unit :=
  match idx with
  | none => .ok ()
  | some i =>
    match s.tasks[i]? with
    | none => .error .not_found
    | some t =>
      if t.profile_id ≠ s.profile.id then .error .activity_task_wrong_profile
      else .ok ()

/-- The optional `reward` cross-reference of `log_activity_duration`: must
resolve, belong to the profile, and be of type reward. -/
def resolve_reward_ref (s : State) (idx : Option Nat) : Except Err Unit :=
  match idx with
  | none => .ok ()
  | some i =>
    match s.tasks[i]? with
    | none => .error .not_found
    | some t =>
      if t.profile_id ≠ s.profile.id then .error .activity_reward_wrong_profile
      else if t.task_type ≠ TaskType.reward then .error .activity_reward_not_reward
      else .ok ()

/-- `log_activity_duration(profile=..., user=..., duration=..., title=...,
timestamp=..., task=..., reward=...)`.  `duration` is in seconds
(`timedelta.total_seconds`); a missing duration fails the same
`duration > 0` gate. -/
def log_activity_duration (s : State) (userId : Nat) (duration : Option ℚ)
    (title : String) (timestamp : Date) (taskIdx rewardIdx : Option Nat) :
    Except Err State :=
  if s.profile.account_id ≠ userId then .error .profile_not_owned
  else
    match duration with
    | none => .error .non_positive_duration
    | some dur =>
      if dur ≤ 0 then .error .non_positive_duration
      else if title.trim = "" then .error .blank_title
      else
        match resolve_task_ref s taskIdx with
        | .error e => .error e
        | .ok _ =>
          match resolve_reward_ref s rewardIdx with
          | .error e => .error e
          | .ok _ =>
            let log : LogEntry := {
              timestamp := timestamp
              type := .activity_duration
              task := taskIdx
              reward := rewardIdx
              gold_delta := 0
              user_gold := to_cents s.profile.gold_balance
              count_delta := none
              duration := some dur
              title_snapshot := title.trim }
            .ok { s with logs := log :: s.logs }

/-! ## Period refresh / new-day workflow (`core/services/task_actions.py`) -/

/-- The daily-streak rollover of `refresh_profile_period_state`: a daily with
a last completion older than the immediately preceding period (and a nonzero
streak) has its streak broken. -/
def refresh_daily_rollover (today : Date) (t : Task) : Task :=
  match t.last_completion_period with
  | none => t
  | some lcp =>
    let current_period := get_daily_period_start_for_task t today
    let expected_prev := previous_daily_period_start current_period
      (t.repeat_cadence.getD .day) t.repeat_every
    if lcp < expected_prev ∧ t.current_streak ≠ 0 then { t with current_streak := 0 }
    else t

/-- `_apply_habit_reset_if_needed`: reset the habit counter when the bucket of
`last_action_at or created_at` is strictly before the bucket of `today`. -/
def apply_habit_reset_if_needed (today : Date) (t : Task) : Task :=
  match t.count_reset_cadence with
  | none => t
  | some cadence =>
    if cadence = .never then t
    else if t.current_count = 0 then t
    else
      let anchor_date := t.last_action_at.getD t.created_at
      let current_period := habit_reset_period_start today cadence
      let anchor_period := habit_reset_period_start anchor_date cadence
      if current_period ≤ anchor_period then t
      else { t with current_count := 0 }

/-- Per-task dispatch of `refresh_profile_period_state`'s two query loops
(dailies first, then habits; a task is in exactly one of them). -/
def refresh_task (today : Date) (pid : Nat) (t : Task) : Task :=
  if t.profile_id = pid ∧ t.task_type = TaskType.daily then refresh_daily_rollover today t
  else if t.profile_id = pid ∧ t.task_type = TaskType.habit then
    apply_habit_reset_if_needed today t
  else t

/-- `refresh_profile_period_state(profile=..., user=..., timestamp=...)`. -/
def refresh_profile_period_state (s : State) (userId : Nat) (today : Date) :
    Except Err State :=
  if s.profile.account_id ≠ userId then .error .profile_not_owned
  else .ok { s with tasks := s.tasks.map (refresh_task today s.profile.id) }

/-- The per-daily backfill step of `start_new_day`: `none` when the guards
skip the task, otherwise the updated task. -/
def update_daily_backfill (today : Date) (t : Task) : Option Task :=
  let current_period := get_daily_period_start_for_task t today
  let previous_period := previous_daily_period_start current_period
    (t.repeat_cadence.getD .day) t.repeat_every
  if t.last_completion_period = some current_period then none
  else if t.last_completion_period = some previous_period then none
  else
    let new_streak :=
      match t.last_completion_period with
      | some lcp =>
        let expected_prev := previous_daily_period_start previous_period
          (t.repeat_cadence.getD .day) t.repeat_every
        if lcp = expected_prev then t.current_streak + 1 else 1
      | none => 1
    some { t with
      current_streak := new_streak
      best_streak := max t.best_streak new_streak
      last_completion_period := some previous_period }

/-- The `for daily in dailies` loop of `start_new_day` over the indexed task
list (the query selects the checked ids that are dailies of this profile),
returning the updated list and the `updated` counter. -/
def start_new_day_loop (checked : List Nat) (pid : Nat) (today : Date) :
    Nat → List Task → List Task × Nat
  | _, [] => ([], 0)
  | i, t :: ts =>
    let rest := start_new_day_loop checked pid today (i + 1) ts
    if i ∈ checked ∧ t.profile_id = pid ∧ t.task_type = TaskType.daily then
      match update_daily_backfill today t with
      | some t2 => (t2 :: rest.1, rest.2 + 1)
      | none => (t :: rest.1, rest.2)
    else (t :: rest.1, rest.2)

/-- `start_new_day(profile=..., user=..., checked_daily_ids=...,
timestamp=...)`: backfill the previous period for the named dailies, then
settle rollovers via `refresh_profile_period_state`; returns the state and
the `updated_count`. -/
def start_new_day (s : State) (userId : Nat) (checked : List Nat) (today : Date) :
    Except Err (State × Nat) :=
  if s.profile.account_id ≠ userId then .error .profile_not_owned
  else
    let p := start_new_day_loop checked s.profile.id today 0 s.tasks
    match refresh_profile_period_state { s with tasks := p.1 } userId today with
    | .error e => .error e
    | .ok s2 => .ok (s2, p.2)

/-! ## Action sequences (for the ledger invariant) -/

/-- One core action invocation, as named by C1. -/
inductive Action where
  | habit_increment (taskIdx : Nat) (byAmt : Option ℚ) (timestamp : Date)
  | daily_complete (taskIdx : Nat) (timestamp : Date) (completion_period : Option Date)
  | todo_complete (taskIdx : Nat) (timestamp : Date)
  | reward_claim (taskIdx : Nat) (timestamp : Date)
  | log_activity_duration (duration : Option ℚ) (title : String) (timestamp : Date)
      (taskIdx rewardIdx : Option Nat)

/-- Dispatch one action. -/
def Action.step (userId : Nat) (s : State) : Action → Except Err State
  | .habit_increment taskIdx byAmt timestamp =>
    Core.habit_increment s taskIdx userId byAmt timestamp
  | .daily_complete taskIdx timestamp completion_period =>
    Core.daily_complete s taskIdx userId timestamp completion_period
  | .todo_complete taskIdx timestamp => Core.todo_complete s taskIdx userId timestamp
  | .reward_claim taskIdx timestamp => Core.reward_claim s taskIdx userId timestamp
  | .log_activity_duration duration title timestamp taskIdx rewardIdx =>
    Core.log_activity_duration s userId duration title timestamp taskIdx rewardIdx

/-- Apply an action; a rejected action rolls the transaction back, leaving
the state unchanged. -/
def Action.apply (userId : Nat) (s : State) (a : Action) : State :=
  match a.step userId s with
  | .ok s2 => s2
  | .error _ => s

/-- Apply a sequence of action attempts in order. -/
def Action.applyAll (userId : Nat) (s : State) (acts : List Action) : State :=
  acts.foldl (Action.apply userId) s

/-! ## Claim theorems -/

/-- The period `daily_complete` resolves for a call: the explicit
`completion_period` (when given) or else the timestamp's calendar date,
bucketed by the task's cadence/repeat_every/creation-date anchor
(`input_date`/`period` of `daily_complete`). -/
def resolved_completion_period (t : Task) (timestamp : Date)
    (completion_period : Option Date) : Date :=
  get_daily_period_start_for_task t (completion_period.getD timestamp)

/-- C10 fixture: an owned habit at count 2, balance 10. -/
def c10task : Task :=
  { profile_id := 1
    task_type := .habit
    title := "Hydrate"
    gold_delta := 2
    created_at := ⟨2026, 1, 1⟩
    last_action_at := none
    total_actions_count := 0
    current_count := 2
    count_increment := 1
    count_reset_cadence := none
    repeat_cadence := none
    repeat_every := 1
    current_streak := 0
    best_streak := 0
    streak_goal := 0
    last_completion_period := none
    is_done := false
    completed_at := none
    is_repeatable := false
    is_claimed := false
    claimed_at := none
    claim_count := 0
    streak_bonus_rules := [] }

def c10s : State :=
  { profile := { id := 1, account_id := 7, gold_balance := 10 }
    tasks := [c10task]
    logs := [] }

/-- C10 counterexample: `by = 10^10` makes the new `current_count` a
13-digit coefficient, so the `full_clean` digit cap
(`DecimalValidator(max_digits=12)`) rejects the transaction — a validation
error is raised, contradicting the claim's unconditional success for every
decimal `by`. -/
theorem C10_counterexample :
    ¬ decimal12_ok (to_cents (c10task.current_count + 10 ^ 10)) ∧
    habit_increment c10s 0 7 (some (10 ^ 10)) ⟨2026, 1, 2⟩
      = .error .decimal_out_of_range := by
  have hnum : ¬ decimal12_ok (to_cents (c10task.current_count + 10 ^ 10)) := by
    norm_num [decimal12_ok, to_cents, roundHalfEven, c10task]
  have hbad : ¬ habit_save_valid c10s c10task
      ((some ((10 : ℚ) ^ 10)).getD c10task.count_increment) := fun h => hnum h.1
  refine ⟨hnum, ?_⟩
  simp only [habit_increment, show c10s.tasks[0]? = some c10task from rfl]
  rw [if_neg (by decide), if_neg (by decide), if_neg (by decide), if_pos hbad]

/-- C10 (amended): `habit_increment` places no sign or zero precondition on
`by` — the only `by`-dependent rejection is `full_clean`'s 12-digit decimal
cap on the values it saves.  For any rational `by` within that cap (zero and
negatives included) the call succeeds, sets
`current_count := to_cents(current_count + by)` (which may go below zero),
credits the full `to_cents(task.gold_delta)`, and logs
`count_delta = to_cents(by)`. -/
theorem C10_amended_habit_increment_by_within_cap (s : State) (i userId : Nat) (b : ℚ)
    (ts : Date) (t : Task) (ht : s.tasks[i]? = some t) (hp : t.profile_id = s.profile.id)
    (ha : s.profile.account_id = userId) (htype : t.task_type = TaskType.habit)
    (hcap : habit_save_valid s t b) :
    ∃ s2, habit_increment s i userId (some b) ts = .ok s2 ∧
      s2.tasks = s.tasks.set i { t with
        current_count := to_cents (t.current_count + b)
        total_actions_count := t.total_actions_count + 1
        last_action_at := some ts } ∧
      s2.profile.gold_balance = to_cents (s.profile.gold_balance + to_cents t.gold_delta) ∧
      ∃ log, s2.logs = log :: s.logs ∧ log.count_delta = some (to_cents b) ∧
        log.gold_delta = to_cents t.gold_delta := by
  have hcap2 : habit_save_valid s t ((some b).getD t.count_increment) := hcap
  simp only [habit_increment, ht]
  rw [if_neg (by simp [hp]), if_neg (by simp [ha]), if_neg (by simp [htype]),
    if_neg (not_not_intro hcap2)]
  exact ⟨_, rfl, rfl, rfl, _, rfl, rfl, rfl⟩

/-- Witness for the amended C10: `by = -5` passes the digit cap and drives
the count below zero while the full gold is still credited. -/
theorem C10_amended_habit_increment_by_within_cap_witness :
    c10s.tasks[0]? = some c10task ∧
    c10task.profile_id = c10s.profile.id ∧
    c10s.profile.account_id = 7 ∧
    c10task.task_type = TaskType.habit ∧
    habit_save_valid c10s c10task (-5) ∧
    (∃ s2, habit_increment c10s 0 7 (some (-5)) ⟨2026, 1, 2⟩ = .ok s2 ∧
      s2.tasks = c10s.tasks.set 0 { c10task with
        current_count := to_cents (c10task.current_count + (-5))
        total_actions_count := c10task.total_actions_count + 1
        last_action_at := some ⟨2026, 1, 2⟩ } ∧
      s2.profile.gold_balance
          = to_cents (c10s.profile.gold_balance + to_cents c10task.gold_delta) ∧
      ∃ log, s2.logs = log :: c10s.logs ∧ log.count_delta = some (to_cents (-5)) ∧
        log.gold_delta = to_cents c10task.gold_delta) := by
  have hcap : habit_save_valid c10s c10task (-5) := by
    norm_num [habit_save_valid, decimal12_ok, to_cents, roundHalfEven, c10task, c10s]
  exact ⟨rfl, rfl, rfl, rfl, hcap,
    C10_amended_habit_increment_by_within_cap c10s 0 7 (-5) ⟨2026, 1, 2⟩ c10task
      rfl rfl rfl rfl hcap⟩

/-- The streak `daily_complete` assigns on success: incremented when the last
completion was exactly the previous period, else reset to 1. -/
def daily_new_streak (t : Task) (timestamp : Date) (completion_period : Option Date) : Nat :=
  if t.last_completion_period = some (previous_daily_period_start
      (resolved_completion_period t timestamp completion_period)
      (t.repeat_cadence.getD .day) t.repeat_every)
  then t.current_streak + 1 else 1

/-- The task record as `daily_complete` persists it on success. -/
def daily_updated_task (t : Task) (ts : Date) (cp : Option Date) : Task :=
  { t with
    current_streak := daily_new_streak t ts cp
    last_completion_period := some (resolved_completion_period t ts cp)
    best_streak := max t.best_streak (daily_new_streak t ts cp)
    last_action_at := some ts
    total_actions_count := t.total_actions_count + 1 }

/-- The gold `daily_complete` credits on success: the rounded base times one
plus the selected bonus percent over 100, rounded to cents. -/
def daily_final_gold (t : Task) (ts : Date) (cp : Option Date) : ℚ :=
  to_cents (to_cents t.gold_delta *
    (1 + selected_bonus_percent t.streak_bonus_rules (daily_new_streak t ts cp) / 100))

/-- Success-path characterization of `daily_complete`. -/
theorem daily_complete_ok (s : State) (i userId : Nat) (ts : Date) (cp : Option Date)
    (t : Task) (ht : s.tasks[i]? = some t) (hp : t.profile_id = s.profile.id)
    (ha : s.profile.account_id = userId) (htype : t.task_type = TaskType.daily)
    (hper : ¬ t.last_completion_period = some (resolved_completion_period t ts cp)) :
    daily_complete s i userId ts cp = .ok {
      profile := { s.profile with
        gold_balance := to_cents (s.profile.gold_balance + daily_final_gold t ts cp) }
      tasks := s.tasks.set i (daily_updated_task t ts cp)
      logs := { timestamp := ts
                type := .daily_completed
                task := some i
                reward := none
                gold_delta := daily_final_gold t ts cp
                user_gold := to_cents (s.profile.gold_balance + daily_final_gold t ts cp)
                count_delta := none
                duration := none
                title_snapshot := t.title } :: s.logs } := by
  simp only [daily_complete, ht]
  rw [if_neg (by simp [hp]), if_neg (by simp [ha]), if_neg (by simp [htype]),
    if_neg (show ¬ t.last_completion_period
      = some (get_daily_period_start_for_task t (cp.getD ts)) from hper)]
  rfl

/-- Idempotency-gate path of `daily_complete`. -/
theorem daily_complete_already (s : State) (i userId : Nat) (ts : Date) (cp : Option Date)
    (t : Task) (ht : s.tasks[i]? = some t) (hp : t.profile_id = s.profile.id)
    (ha : s.profile.account_id = userId) (htype : t.task_type = TaskType.daily)
    (hper : t.last_completion_period = some (resolved_completion_period t ts cp)) :
    daily_complete s i userId ts cp = .error .already_completed_period := by
  simp only [daily_complete, ht]
  rw [if_neg (by simp [hp]), if_neg (by simp [ha]), if_neg (by simp [htype]),
    if_pos (show t.last_completion_period
      = some (get_daily_period_start_for_task t (cp.getD ts)) from hper)]

/-- C2: for a daily task (owned, right type), `daily_complete` raises the
already-completed error iff the call's resolved period equals
`task.last_completion_period` — the idempotency key is the period bucket —
and after a success any second call resolving to the same period fails with
the already-completed error regardless of its timestamp. -/
theorem C2_daily_complete_idempotency_gate (s : State) (i userId : Nat) (ts : Date)
    (cp : Option Date) (t : Task) (ht : s.tasks[i]? = some t)
    (hp : t.profile_id = s.profile.id) (ha : s.profile.account_id = userId)
    (htype : t.task_type = TaskType.daily) :
    (daily_complete s i userId ts cp = .error .already_completed_period ↔
      t.last_completion_period = some (resolved_completion_period t ts cp)) ∧
    (∀ s2, daily_complete s i userId ts cp = .ok s2 →
      ∀ ts2 cp2, resolved_completion_period t ts2 cp2 = resolved_completion_period t ts cp →
        daily_complete s2 i userId ts2 cp2 = .error .already_completed_period) := by
  have hlen : i < s.tasks.length := (List.getElem?_eq_some.mp ht).1
  constructor
  · constructor
    · intro herr
      by_cases hper : t.last_completion_period = some (resolved_completion_period t ts cp)
      · exact hper
      · rw [daily_complete_ok s i userId ts cp t ht hp ha htype hper] at herr
        exact absurd herr (by simp)
    · intro hper
      exact daily_complete_already s i userId ts cp t ht hp ha htype hper
  · intro s2 hok ts2 cp2 hres
    by_cases hper : t.last_completion_period = some (resolved_completion_period t ts cp)
    · rw [daily_complete_already s i userId ts cp t ht hp ha htype hper] at hok
      exact absurd hok (by simp)
    · rw [daily_complete_ok s i userId ts cp t ht hp ha htype hper] at hok
      injection hok with hs2
      subst hs2
      exact daily_complete_already _ i userId ts2 cp2 (daily_updated_task t ts cp)
        (by simp [List.getElem?_set, hlen]) hp ha htype
        (show some (resolved_completion_period t ts cp)
          = some (resolved_completion_period t ts2 cp2) by rw [hres])

/-- C2/C3 witness fixture: a fresh day-cadence daily. -/
def c2task : Task :=
  { profile_id := 1
    task_type := .daily
    title := "Read"
    gold_delta := 2
    created_at := ⟨2026, 1, 1⟩
    last_action_at := none
    total_actions_count := 0
    current_count := 0
    count_increment := 1
    count_reset_cadence := none
    repeat_cadence := some .day
    repeat_every := 1
    current_streak := 0
    best_streak := 0
    streak_goal := 0
    last_completion_period := none
    is_done := false
    completed_at := none
    is_repeatable := false
    is_claimed := false
    claimed_at := none
    claim_count := 0
    streak_bonus_rules := [] }

def c2s : State :=
  { profile := { id := 1, account_id := 7, gold_balance := 0 }
    tasks := [c2task]
    logs := [] }

/-- Witness for C2 at a concrete daily task and profile. -/
theorem C2_daily_complete_idempotency_gate_witness :
    c2s.tasks[0]? = some c2task ∧
    c2task.profile_id = c2s.profile.id ∧
    c2s.profile.account_id = 7 ∧
    c2task.task_type = TaskType.daily ∧
    ((daily_complete c2s 0 7 ⟨2026, 2, 21⟩ (some ⟨2026, 2, 21⟩)
        = .error .already_completed_period ↔
      c2task.last_completion_period
        = some (resolved_completion_period c2task ⟨2026, 2, 21⟩ (some ⟨2026, 2, 21⟩))) ∧
    (∀ s2, daily_complete c2s 0 7 ⟨2026, 2, 21⟩ (some ⟨2026, 2, 21⟩) = .ok s2 →
      ∀ ts2 cp2, resolved_completion_period c2task ts2 cp2
          = resolved_completion_period c2task ⟨2026, 2, 21⟩ (some ⟨2026, 2, 21⟩) →
        daily_complete s2 0 7 ts2 cp2 = .error .already_completed_period)) :=
  ⟨rfl, rfl, rfl, rfl,
    C2_daily_complete_idempotency_gate c2s 0 7 ⟨2026, 2, 21⟩ (some ⟨2026, 2, 21⟩) c2task
      rfl rfl rfl rfl⟩

/-- C3: the streak rule of `daily_complete`: on success the streak is
incremented when `last_completion_period` equals
`previous_daily_period_start(period, ...)` and reset to 1 otherwise, and
`best_streak` becomes the max of the old best and the new streak (hence three
gap-free consecutive completions yield streak 3, and a skipped period resets
to 1). -/
theorem C3_daily_complete_streak_rule (s : State) (i userId : Nat) (ts : Date)
    (cp : Option Date) (t : Task) (ht : s.tasks[i]? = some t)
    (hp : t.profile_id = s.profile.id) (ha : s.profile.account_id = userId)
    (htype : t.task_type = TaskType.daily) :
    ∀ s2, daily_complete s i userId ts cp = .ok s2 →
      ∃ t2, s2.tasks = s.tasks.set i t2 ∧
        t2.current_streak = (if t.last_completion_period
            = some (previous_daily_period_start (resolved_completion_period t ts cp)
                (t.repeat_cadence.getD .day) t.repeat_every)
          then t.current_streak + 1 else 1) ∧
        t2.best_streak = max t.best_streak t2.current_streak := by
  intro s2 hok
  by_cases hper : t.last_completion_period = some (resolved_completion_period t ts cp)
  · rw [daily_complete_already s i userId ts cp t ht hp ha htype hper] at hok
    exact absurd hok (by simp)
  · rw [daily_complete_ok s i userId ts cp t ht hp ha htype hper] at hok
    injection hok with hs2
    subst hs2
    exact ⟨daily_updated_task t ts cp, rfl, rfl, rfl⟩

/-- C3 witness fixture: the same daily at streak 2 with the previous period
completed. -/
def c3task : Task :=
  { c2task with
    title := "Meditate"
    gold_delta := 10
    current_streak := 2
    best_streak := 2
    last_completion_period := some ⟨2026, 2, 20⟩ }

def c3s : State :=
  { profile := { id := 1, account_id := 7, gold_balance := 10 }
    tasks := [c3task]
    logs := [] }

/-- Witness for C3: completing the period right after the last completion
increments the streak. -/
theorem C3_daily_complete_streak_rule_witness :
    c3s.tasks[0]? = some c3task ∧
    c3task.profile_id = c3s.profile.id ∧
    c3s.profile.account_id = 7 ∧
    c3task.task_type = TaskType.daily ∧
    (∀ s2, daily_complete c3s 0 7 ⟨2026, 2, 21⟩ (some ⟨2026, 2, 21⟩) = .ok s2 →
      ∃ t2, s2.tasks = c3s.tasks.set 0 t2 ∧
        t2.current_streak = (if c3task.last_completion_period
            = some (previous_daily_period_start
                (resolved_completion_period c3task ⟨2026, 2, 21⟩ (some ⟨2026, 2, 21⟩))
                (c3task.repeat_cadence.getD .day) c3task.repeat_every)
          then c3task.current_streak + 1 else 1) ∧
        t2.best_streak = max c3task.best_streak t2.current_streak) :=
  ⟨rfl, rfl, rfl, rfl,
    C3_daily_complete_streak_rule c3s 0 7 ⟨2026, 2, 21⟩ (some ⟨2026, 2, 21⟩) c3task
      rfl rfl rfl rfl⟩

/-- C5 counterexample fixture: a weekly daily task anchored on Monday
2024-01-01. -/
def c5task : Task :=
  { profile_id := 1
    task_type := .daily
    title := "Weekly daily"
    gold_delta := 2
    created_at := ⟨2024, 1, 1⟩
    last_action_at := none
    total_actions_count := 0
    current_count := 0
    count_increment := 1
    count_reset_cadence := none
    repeat_cadence := some .week
    repeat_every := 1
    current_streak := 0
    best_streak := 0
    streak_goal := 0
    last_completion_period := none
    is_done := false
    completed_at := none
    is_repeatable := false
    is_claimed := false
    claimed_at := none
    claim_count := 0
    streak_bonus_rules := [] }

def c5s : State :=
  { profile := { id := 1, account_id := 7, gold_balance := 0 }
    tasks := [c5task]
    logs := [] }

/-- C5 counterexample: passing `completion_period = 2024-01-10` (a Wednesday)
to a weekly daily does *not* record that date as the period: the stored
`last_completion_period` is the bucket start 2024-01-08 computed by the
period resolver, so the explicit `completion_period` does not bypass bucket
computation. -/
theorem C5_counterexample :
    ∃ s2, daily_complete c5s 0 7 ⟨2024, 1, 9⟩ (some ⟨2024, 1, 10⟩) = .ok s2 ∧
      s2.tasks = [daily_updated_task c5task ⟨2024, 1, 9⟩ (some ⟨2024, 1, 10⟩)] ∧
      (daily_updated_task c5task ⟨2024, 1, 9⟩
          (some ⟨2024, 1, 10⟩)).last_completion_period = some ⟨2024, 1, 8⟩ ∧
      some (⟨2024, 1, 8⟩ : Date) ≠ some (⟨2024, 1, 10⟩ : Date) :=
  ⟨_, daily_complete_ok c5s 0 7 ⟨2024, 1, 9⟩ (some ⟨2024, 1, 10⟩) c5task rfl rfl rfl rfl
      (by decide), rfl, by decide, by decide⟩

/-- C5 (amended): an explicit `completion_period` replaces the timestamp's
calendar date as the *target date* of the bucket computation — the resolved
period is always `daily_period_start` of `completion_period or date(timestamp)`
with the task's cadence, repeat_every, and creation date as anchor; the
caller's value is not used as the period directly. -/
theorem C5_amended_completion_period_is_bucket_input (s : State) (i userId : Nat) (ts : Date)
    (cp : Option Date) (t : Task) (ht : s.tasks[i]? = some t)
    (hp : t.profile_id = s.profile.id) (ha : s.profile.account_id = userId)
    (htype : t.task_type = TaskType.daily) :
    ∀ s2, daily_complete s i userId ts cp = .ok s2 →
      ∃ t2, s2.tasks = s.tasks.set i t2 ∧
        t2.last_completion_period = some (daily_period_start (cp.getD ts)
          (t.repeat_cadence.getD .day) t.repeat_every t.created_at) := by
  intro s2 hok
  by_cases hper : t.last_completion_period = some (resolved_completion_period t ts cp)
  · rw [daily_complete_already s i userId ts cp t ht hp ha htype hper] at hok
    exact absurd hok (by simp)
  · rw [daily_complete_ok s i userId ts cp t ht hp ha htype hper] at hok
    injection hok with hs2
    subst hs2
    exact ⟨daily_updated_task t ts cp, rfl, rfl⟩

/-- Witness for the amended C5 at the counterexample fixture. -/
theorem C5_amended_completion_period_is_bucket_input_witness :
    c5s.tasks[0]? = some c5task ∧
    c5task.profile_id = c5s.profile.id ∧
    c5s.profile.account_id = 7 ∧
    c5task.task_type = TaskType.daily ∧
    (∀ s2, daily_complete c5s 0 7 ⟨2024, 1, 9⟩ (some ⟨2024, 1, 10⟩) = .ok s2 →
      ∃ t2, s2.tasks = c5s.tasks.set 0 t2 ∧
        t2.last_completion_period = some (daily_period_start
          ((some (⟨2024, 1, 10⟩ : Date)).getD ⟨2024, 1, 9⟩)
          (c5task.repeat_cadence.getD .day) c5task.repeat_every c5task.created_at)) :=
  ⟨rfl, rfl, rfl, rfl,
    C5_amended_completion_period_is_bucket_input c5s 0 7 ⟨2024, 1, 9⟩ (some ⟨2024, 1, 10⟩)
      c5task rfl rfl rfl rfl⟩

theorem le_foldl_max (b : ℚ) (bs : List ℚ) :
    b ≤ bs.foldl max b ∧ ∀ x ∈ bs, x ≤ bs.foldl max b := by
  induction bs generalizing b with
  | nil => exact ⟨le_refl b, by simp⟩
  | cons c cs ih =>
    obtain ⟨h1, h2⟩ := ih (max b c)
    refine ⟨le_trans (le_max_left b c) h1, ?_⟩
    intro x hx
    rcases List.mem_cons.mp hx with rfl | hx
    · exact le_trans (le_max_right b x) h1
    · exact h2 x hx

theorem foldl_max_mem (b : ℚ) (bs : List ℚ) : bs.foldl max b = b ∨ bs.foldl max b ∈ bs := by
  induction bs generalizing b with
  | nil => exact Or.inl rfl
  | cons c cs ih =>
    rcases ih (max b c) with h | h
    · rcases max_choice b c with hm | hm
      · exact Or.inl (by rw [List.foldl_cons, h, hm])
      · exact Or.inr (by rw [List.foldl_cons, h, hm]; exact List.mem_cons_self c cs)
    · exact Or.inr (List.mem_cons_of_mem c h)

/-- The implementation's bonus selection is the maximum `bonus_percent` among
the rules whose `streak_goal` is at most the streak (0 when none qualifies):
it dominates every qualifying rule and is attained by one of them. -/
theorem selected_bonus_percent_spec (rules : List StreakBonusRule) (streak : Nat) :
    (∀ r ∈ rules, r.streak_goal ≤ streak →
      r.bonus_percent ≤ selected_bonus_percent rules streak) ∧
    (selected_bonus_percent rules streak = 0 ∨
      ∃ r ∈ rules, r.streak_goal ≤ streak ∧
        r.bonus_percent = selected_bonus_percent rules streak) := by
  unfold selected_bonus_percent
  cases hl : (rules.filter fun r => decide (r.streak_goal ≤ streak)).map
      (fun r => r.bonus_percent) with
  | nil =>
    constructor
    · intro r hr hle
      have hmem : r.bonus_percent ∈ (rules.filter fun r => decide (r.streak_goal ≤ streak)).map
          (fun r => r.bonus_percent) :=
        List.mem_map_of_mem _ (List.mem_filter.mpr ⟨hr, by simpa using hle⟩)
      rw [hl] at hmem
      exact absurd hmem (List.not_mem_nil _)
    · exact Or.inl rfl
  | cons b bs =>
    constructor
    · intro r hr hle
      have hmem : r.bonus_percent ∈ b :: bs := by
        rw [← hl]
        exact List.mem_map_of_mem _ (List.mem_filter.mpr ⟨hr, by simpa using hle⟩)
      rcases List.mem_cons.mp hmem with h | h
      · rw [h]; exact (le_foldl_max b bs).1
      · exact (le_foldl_max b bs).2 _ h
    · right
      have hmem : bs.foldl max b ∈ b :: bs := by
        rcases foldl_max_mem b bs with h | h
        · rw [h]; exact List.mem_cons_self _ _
        · exact List.mem_cons_of_mem _ h
      rw [← hl] at hmem
      obtain ⟨r, hrf, hrb⟩ := List.mem_map.mp hmem
      obtain ⟨hrr, hrq⟩ := List.mem_filter.mp hrf
      exact ⟨r, hrr, by simpa using hrq, hrb⟩

/-- Modelled from the spec: the claim's (and §3's) selection rule — the rule
with the *highest `streak_goal`* among those with `streak_goal ≤ streak`,
ties broken by highest `bonus_percent`, default 0% — stated here only to be
compared against the implementation's selection. -/
def spec_selected_bonus_percent (rules : List StreakBonusRule) (streak : Nat) : ℚ :=
  let qualifying := rules.filter (fun r => decide (r.streak_goal ≤ streak))
  let top_goal := (qualifying.map (fun r => r.streak_goal)).foldr max 0
  let top_rules := qualifying.filter (fun r => decide (r.streak_goal = top_goal))
  match top_rules.map (fun r => r.bonus_percent) with
  | [] => 0
  | b :: bs => bs.foldl max b

def c6rules : List StreakBonusRule :=
  [{ streak_goal := 2, bonus_percent := 25 }, { streak_goal := 3, bonus_percent := 10 }]

/-- C6 counterexample fixture: a day-cadence daily at streak 2 whose
highest-goal qualifying rule (goal 3) carries a *lower* bonus percent than
the goal-2 rule. -/
def c6task : Task :=
  { profile_id := 1
    task_type := .daily
    title := "Meditate"
    gold_delta := 10
    created_at := ⟨2026, 2, 1⟩
    last_action_at := none
    total_actions_count := 0
    current_count := 0
    count_increment := 1
    count_reset_cadence := none
    repeat_cadence := some .day
    repeat_every := 1
    current_streak := 2
    best_streak := 2
    streak_goal := 0
    last_completion_period := some ⟨2026, 2, 20⟩
    is_done := false
    completed_at := none
    is_repeatable := false
    is_claimed := false
    claimed_at := none
    claim_count := 0
    streak_bonus_rules := c6rules }

def c6s : State :=
  { profile := { id := 1, account_id := 7, gold_balance := 10 }
    tasks := [c6task]
    logs := [] }

set_option maxRecDepth 100000 in
/-- C6 counterexample: with rules `{goal 2 → 25%, goal 3 → 10%}` and the
streak advancing to 3, the claim's highest-`streak_goal` selection predicts
the goal-3 rule (10%, gold 11.00), but the engine applies the highest
`bonus_percent` among qualifying rules (25%) and logs gold 12.50. -/
theorem C6_counterexample :
    ∃ s2, daily_complete c6s 0 7 ⟨2026, 2, 21⟩ none = .ok s2 ∧
      (∃ log, s2.logs = log :: [] ∧ log.gold_delta = 25/2) ∧
      spec_selected_bonus_percent c6rules 3 = 10 ∧
      to_cents (to_cents (10:ℚ) * (1 + spec_selected_bonus_percent c6rules 3 / 100)) = 11 ∧
      (25/2 : ℚ) ≠ 11 := by
  have h10 : spec_selected_bonus_percent c6rules 3 = 10 := by
    norm_num [spec_selected_bonus_percent, c6rules, List.filter, List.map, List.foldr,
      List.foldl]
  refine ⟨_, daily_complete_ok c6s 0 7 ⟨2026, 2, 21⟩ none c6task rfl rfl rfl rfl (by decide),
    ⟨_, rfl, ?_⟩, h10, ?_, by norm_num⟩
  · show daily_final_gold c6task ⟨2026, 2, 21⟩ none = 25/2
    have hns : daily_new_streak c6task ⟨2026, 2, 21⟩ none = 3 := by decide
    unfold daily_final_gold
    rw [hns]
    have hsel : selected_bonus_percent c6task.streak_bonus_rules 3 = 25 := by
      show selected_bonus_percent c6rules 3 = 25
      norm_num [selected_bonus_percent, c6rules, List.filter, List.map, List.foldl, max_def]
    rw [hsel]
    show to_cents (to_cents (10:ℚ) * (1 + 25 / 100)) = 25/2
    norm_num [to_cents, roundHalfEven]
  · rw [h10]
    norm_num [to_cents, roundHalfEven]

/-- C6 (amended): on a successful `daily_complete` the applied bonus percent
is the *highest `bonus_percent`* among the task's rules with
`streak_goal ≤ new current_streak` (0% when none qualifies) — dominating
every qualifying rule and attained by one — and the credited gold is
`to_cents(to_cents(gold_delta) * (1 + bonus_percent/100))`. -/
theorem C6_amended_bonus_is_max_percent (s : State) (i userId : Nat) (ts : Date)
    (cp : Option Date) (t : Task) (ht : s.tasks[i]? = some t)
    (hp : t.profile_id = s.profile.id) (ha : s.profile.account_id = userId)
    (htype : t.task_type = TaskType.daily) :
    ∀ s2, daily_complete s i userId ts cp = .ok s2 →
      ∃ log, s2.logs = log :: s.logs ∧
        log.gold_delta = to_cents (to_cents t.gold_delta *
          (1 + selected_bonus_percent t.streak_bonus_rules (daily_new_streak t ts cp) / 100)) ∧
        s2.profile.gold_balance = to_cents (s.profile.gold_balance + log.gold_delta) ∧
        (∀ r ∈ t.streak_bonus_rules, r.streak_goal ≤ daily_new_streak t ts cp →
          r.bonus_percent ≤ selected_bonus_percent t.streak_bonus_rules
            (daily_new_streak t ts cp)) ∧
        (selected_bonus_percent t.streak_bonus_rules (daily_new_streak t ts cp) = 0 ∨
          ∃ r ∈ t.streak_bonus_rules, r.streak_goal ≤ daily_new_streak t ts cp ∧
            r.bonus_percent = selected_bonus_percent t.streak_bonus_rules
              (daily_new_streak t ts cp)) := by
  intro s2 hok
  by_cases hper : t.last_completion_period = some (resolved_completion_period t ts cp)
  · rw [daily_complete_already s i userId ts cp t ht hp ha htype hper] at hok
    exact absurd hok (by simp)
  · rw [daily_complete_ok s i userId ts cp t ht hp ha htype hper] at hok
    injection hok with hs2
    subst hs2
    obtain ⟨hdom, hatt⟩ := selected_bonus_percent_spec t.streak_bonus_rules
      (daily_new_streak t ts cp)
    exact ⟨_, rfl, rfl, rfl, hdom, hatt⟩

/-- Witness for the amended C6 at the counterexample fixture. -/
theorem C6_amended_bonus_is_max_percent_witness :
    c6s.tasks[0]? = some c6task ∧
    c6task.profile_id = c6s.profile.id ∧
    c6s.profile.account_id = 7 ∧
    c6task.task_type = TaskType.daily ∧
    (∀ s2, daily_complete c6s 0 7 ⟨2026, 2, 21⟩ none = .ok s2 →
      ∃ log, s2.logs = log :: c6s.logs ∧
        log.gold_delta = to_cents (to_cents c6task.gold_delta *
          (1 + selected_bonus_percent c6task.streak_bonus_rules
            (daily_new_streak c6task ⟨2026, 2, 21⟩ none) / 100)) ∧
        s2.profile.gold_balance = to_cents (c6s.profile.gold_balance + log.gold_delta) ∧
        (∀ r ∈ c6task.streak_bonus_rules,
          r.streak_goal ≤ daily_new_streak c6task ⟨2026, 2, 21⟩ none →
          r.bonus_percent ≤ selected_bonus_percent c6task.streak_bonus_rules
            (daily_new_streak c6task ⟨2026, 2, 21⟩ none)) ∧
        (selected_bonus_percent c6task.streak_bonus_rules
            (daily_new_streak c6task ⟨2026, 2, 21⟩ none) = 0 ∨
          ∃ r ∈ c6task.streak_bonus_rules,
            r.streak_goal ≤ daily_new_streak c6task ⟨2026, 2, 21⟩ none ∧
            r.bonus_percent = selected_bonus_percent c6task.streak_bonus_rules
              (daily_new_streak c6task ⟨2026, 2, 21⟩ none))) :=
  ⟨rfl, rfl, rfl, rfl,
    C6_amended_bonus_is_max_percent c6s 0 7 ⟨2026, 2, 21⟩ none c6task rfl rfl rfl rfl⟩

/-- C4 counterexample fixture: an already-claimed, non-repeatable reward
whose cost also exceeds the balance. -/
def c4task : Task :=
  { profile_id := 1
    task_type := .reward
    title := "Buy game"
    gold_delta := -99
    created_at := ⟨2026, 1, 1⟩
    last_action_at := none
    total_actions_count := 1
    current_count := 0
    count_increment := 1
    count_reset_cadence := none
    repeat_cadence := none
    repeat_every := 1
    current_streak := 0
    best_streak := 0
    streak_goal := 0
    last_completion_period := none
    is_done := false
    completed_at := none
    is_repeatable := false
    is_claimed := true
    claimed_at := some ⟨2026, 1, 2⟩
    claim_count := 1
    streak_bonus_rules := [] }

def c4s : State :=
  { profile := { id := 1, account_id := 7, gold_balance := 10 }
    tasks := [c4task]
    logs := [] }

/-- C4 counterexample: for an already-claimed non-repeatable reward whose
cost exceeds the balance, `reward_claim` raises the already-claimed error,
not the insufficient-funds error the claim predicts — the repeatability
guard fires before the funds guard. -/
theorem C4_counterexample :
    to_cents (c4s.profile.gold_balance + c4task.gold_delta) < 0 ∧
    reward_claim c4s 0 7 ⟨2026, 3, 1⟩ = .error .reward_already_claimed ∧
    (Except.error Err.reward_already_claimed : Except Err State)
      ≠ .error .insufficient_funds := by
  refine ⟨?_, ?_, by simp⟩
  · show to_cents ((10 : ℚ) + (-99 : ℚ)) < 0
    norm_num [to_cents, roundHalfEven]
  · simp only [reward_claim, show c4s.tasks[0]? = some c4task from rfl]
    rw [if_neg (by decide), if_neg (by decide), if_neg (by decide),
      if_neg (show ¬ (0:ℚ) ≤ c4task.gold_delta by norm_num [c4task]),
      if_pos (by decide)]

/-- C4 (amended): for an owned reward task with negative cost, *provided the
already-claimed guard passes* (repeatable, or not yet claimed), a claim that
would leave the rounded balance negative is rejected with the
insufficient-funds error (the rejected transaction commits nothing), and a
successful claim always leaves `gold_balance = to_cents(balance + gold_delta)
≥ 0`. -/
theorem C4_amended_reward_claim_funds_guard (s : State) (i userId : Nat) (ts : Date)
    (t : Task) (ht : s.tasks[i]? = some t) (hp : t.profile_id = s.profile.id)
    (ha : s.profile.account_id = userId) (htype : t.task_type = TaskType.reward)
    (hneg : t.gold_delta < 0) (hguard : t.is_repeatable ∨ t.is_claimed = false) :
    (to_cents (s.profile.gold_balance + t.gold_delta) < 0 →
      reward_claim s i userId ts = .error .insufficient_funds) ∧
    (∀ s2, reward_claim s i userId ts = .ok s2 →
      0 ≤ s2.profile.gold_balance ∧
      s2.profile.gold_balance = to_cents (s.profile.gold_balance + t.gold_delta)) := by
  have hguard2 : ¬(¬t.is_repeatable ∧ t.is_claimed) := by
    rcases hguard with h | h
    · exact fun hc => hc.1 h
    · exact fun hc => by rw [h] at hc; exact Bool.false_ne_true hc.2
  constructor
  · intro hfunds
    simp only [reward_claim, ht]
    rw [if_neg (by simp [hp]), if_neg (by simp [ha]), if_neg (by simp [htype]),
      if_neg (not_le.mpr hneg), if_neg hguard2, if_pos hfunds]
  · intro s2 hok
    simp only [reward_claim, ht] at hok
    rw [if_neg (by simp [hp]), if_neg (by simp [ha]), if_neg (by simp [htype]),
      if_neg (not_le.mpr hneg), if_neg hguard2] at hok
    by_cases hfunds : to_cents (s.profile.gold_balance + t.gold_delta) < 0
    · rw [if_pos hfunds] at hok
      exact absurd hok (by simp)
    · rw [if_neg hfunds] at hok
      injection hok with hs2
      subst hs2
      exact ⟨not_lt.mp hfunds, rfl⟩

/-- C4 (amended) witness fixture: the same reward, not yet claimed. -/
def c4btask : Task :=
  { c4task with
    total_actions_count := 0
    is_claimed := false
    claimed_at := none
    claim_count := 0 }

def c4bs : State :=
  { profile := { id := 1, account_id := 7, gold_balance := 10 }
    tasks := [c4btask]
    logs := [] }

/-- Witness for the amended C4: an unclaimed reward costing 99 gold against
balance 10 is rejected with the insufficient-funds error. -/
theorem C4_amended_reward_claim_funds_guard_witness :
    c4bs.tasks[0]? = some c4btask ∧
    c4btask.profile_id = c4bs.profile.id ∧
    c4bs.profile.account_id = 7 ∧
    c4btask.task_type = TaskType.reward ∧
    c4btask.gold_delta < 0 ∧
    (c4btask.is_repeatable ∨ c4btask.is_claimed = false) ∧
    ((to_cents (c4bs.profile.gold_balance + c4btask.gold_delta) < 0 →
      reward_claim c4bs 0 7 ⟨2026, 3, 1⟩ = .error .insufficient_funds) ∧
    (∀ s2, reward_claim c4bs 0 7 ⟨2026, 3, 1⟩ = .ok s2 →
      0 ≤ s2.profile.gold_balance ∧
      s2.profile.gold_balance = to_cents (c4bs.profile.gold_balance + c4btask.gold_delta))) :=
  ⟨rfl, rfl, rfl, rfl, by norm_num [c4btask, c4task], Or.inr rfl,
    C4_amended_reward_claim_funds_guard c4bs 0 7 ⟨2026, 3, 1⟩ c4btask rfl rfl rfl rfl
      (by norm_num [c4btask, c4task]) (Or.inr rfl)⟩

/-- One daily-rollover pass is idempotent on a task. -/
theorem refresh_daily_rollover_idem (d : Date) (t : Task) :
    refresh_daily_rollover d (refresh_daily_rollover d t)
      = refresh_daily_rollover d t := by
  cases hl : t.last_completion_period with
  | none =>
    have heq : refresh_daily_rollover d t = t := by
      unfold refresh_daily_rollover
      rw [hl]
    rw [heq, heq]
  | some lcp =>
    by_cases hc : lcp < previous_daily_period_start
        (get_daily_period_start_for_task t d) (t.repeat_cadence.getD .day) t.repeat_every ∧
        t.current_streak ≠ 0
    · have heq : refresh_daily_rollover d t = { t with current_streak := 0 } := by
        unfold refresh_daily_rollover
        rw [hl]
        dsimp only
        rw [if_pos hc]
      rw [heq]
      unfold refresh_daily_rollover
      dsimp only
      rw [hl]
      dsimp only
      rw [if_neg (by simp)]
    · have heq : refresh_daily_rollover d t = t := by
        unfold refresh_daily_rollover
        rw [hl]
        dsimp only
        rw [if_neg hc]
      rw [heq, heq]

/-- One habit-reset pass is idempotent on a task. -/
theorem apply_habit_reset_idem (d : Date) (t : Task) :
    apply_habit_reset_if_needed d (apply_habit_reset_if_needed d t)
      = apply_habit_reset_if_needed d t := by
  cases hc : t.count_reset_cadence with
  | none =>
    have heq : apply_habit_reset_if_needed d t = t := by
      unfold apply_habit_reset_if_needed
      rw [hc]
    rw [heq, heq]
  | some c =>
    by_cases h1 : c = Cadence.never
    · have heq : apply_habit_reset_if_needed d t = t := by
        unfold apply_habit_reset_if_needed
        rw [hc]
        dsimp only
        rw [if_pos h1]
      rw [heq, heq]
    · by_cases h2 : t.current_count = 0
      · have heq : apply_habit_reset_if_needed d t = t := by
          unfold apply_habit_reset_if_needed
          rw [hc]
          dsimp only
          rw [if_neg h1, if_pos h2]
        rw [heq, heq]
      · by_cases h3 : habit_reset_period_start d c
            ≤ habit_reset_period_start (t.last_action_at.getD t.created_at) c
        · have heq : apply_habit_reset_if_needed d t = t := by
            unfold apply_habit_reset_if_needed
            rw [hc]
            dsimp only
            rw [if_neg h1, if_neg h2, if_pos h3]
          rw [heq, heq]
        · have heq : apply_habit_reset_if_needed d t = { t with current_count := 0 } := by
            unfold apply_habit_reset_if_needed
            rw [hc]
            dsimp only
            rw [if_neg h1, if_neg h2, if_neg h3]
          rw [heq]
          unfold apply_habit_reset_if_needed
          dsimp only
          rw [hc]
          dsimp only
          rw [if_neg h1, if_pos rfl]

/-- The per-task refresh dispatch is idempotent. -/
theorem refresh_task_idem (d : Date) (pid : Nat) (t : Task) :
    refresh_task d pid (refresh_task d pid t) = refresh_task d pid t := by
  have hrdr_pid : (refresh_daily_rollover d t).profile_id = t.profile_id := by
    unfold refresh_daily_rollover
    cases t.last_completion_period <;> dsimp only <;> split_ifs <;> rfl
  have hrdr_ty : (refresh_daily_rollover d t).task_type = t.task_type := by
    unfold refresh_daily_rollover
    cases t.last_completion_period <;> dsimp only <;> split_ifs <;> rfl
  have hahr_pid : (apply_habit_reset_if_needed d t).profile_id = t.profile_id := by
    unfold apply_habit_reset_if_needed
    cases t.count_reset_cadence <;> dsimp only <;> split_ifs <;> rfl
  have hahr_ty : (apply_habit_reset_if_needed d t).task_type = t.task_type := by
    unfold apply_habit_reset_if_needed
    cases t.count_reset_cadence <;> dsimp only <;> split_ifs <;> rfl
  by_cases h1 : t.profile_id = pid ∧ t.task_type = TaskType.daily
  · have heq : refresh_task d pid t = refresh_daily_rollover d t := by
      unfold refresh_task
      rw [if_pos h1]
    rw [heq]
    have heq2 : refresh_task d pid (refresh_daily_rollover d t)
        = refresh_daily_rollover d (refresh_daily_rollover d t) := by
      unfold refresh_task
      rw [if_pos (by rw [hrdr_pid, hrdr_ty]; exact h1)]
    rw [heq2]
    exact refresh_daily_rollover_idem d t
  · by_cases h2 : t.profile_id = pid ∧ t.task_type = TaskType.habit
    · have heq : refresh_task d pid t = apply_habit_reset_if_needed d t := by
        unfold refresh_task
        rw [if_neg h1, if_pos h2]
      rw [heq]
      have heq2 : refresh_task d pid (apply_habit_reset_if_needed d t)
          = apply_habit_reset_if_needed d (apply_habit_reset_if_needed d t) := by
        unfold refresh_task
        rw [if_neg (by rw [hahr_pid, hahr_ty]; exact h1),
          if_pos (by rw [hahr_pid, hahr_ty]; exact h2)]
      rw [heq2]
      exact apply_habit_reset_idem d t
    · have heq : refresh_task d pid t = t := by
        unfold refresh_task
        rw [if_neg h1, if_neg h2]
      rw [heq, heq]

/-- C7: `refresh_profile_period_state` is idempotent — re-running it with the
same timestamp returns exactly the same state (all daily streaks and habit
counts included). -/
theorem C7_refresh_profile_period_state_idempotent (s : State) (userId : Nat) (today : Date) :
    ∀ s2, refresh_profile_period_state s userId today = .ok s2 →
      refresh_profile_period_state s2 userId today = .ok s2 := by
  intro s2 hok
  unfold refresh_profile_period_state at hok
  by_cases h1 : s.profile.account_id ≠ userId
  · rw [if_pos h1] at hok
    exact absurd hok (by simp)
  · rw [if_neg h1] at hok
    injection hok with hs2
    subst hs2
    unfold refresh_profile_period_state
    dsimp only
    rw [if_neg h1]
    have hmap : List.map (refresh_task today s.profile.id)
        (List.map (refresh_task today s.profile.id) s.tasks)
          = List.map (refresh_task today s.profile.id) s.tasks := by
      rw [List.map_map]
      exact List.map_congr_left fun t _ => refresh_task_idem today s.profile.id t
    rw [hmap]

/-- C7 witness fixture: a daily with a stale completion period, so the streak
reset actually fires on the first refresh. -/
def c7task : Task :=
  { profile_id := 1
    task_type := .daily
    title := "Stretch"
    gold_delta := 1
    created_at := ⟨2026, 1, 1⟩
    last_action_at := some ⟨2026, 1, 10⟩
    total_actions_count := 3
    current_count := 0
    count_increment := 1
    count_reset_cadence := none
    repeat_cadence := some .day
    repeat_every := 1
    current_streak := 3
    best_streak := 3
    streak_goal := 0
    last_completion_period := some ⟨2026, 1, 10⟩
    is_done := false
    completed_at := none
    is_repeatable := false
    is_claimed := false
    claimed_at := none
    claim_count := 0
    streak_bonus_rules := [] }

def c7s : State :=
  { profile := { id := 1, account_id := 7, gold_balance := 0 }
    tasks := [c7task]
    logs := [] }

/-- The state produced by the first refresh of [[c7s]]. -/
def c7s2 : State :=
  { c7s with tasks := c7s.tasks.map (refresh_task ⟨2026, 1, 20⟩ c7s.profile.id) }

/-- Witness for C7: a state whose daily has a stale completion (streak reset
applies); the first refresh succeeds and the second returns it unchanged. -/
theorem C7_refresh_profile_period_state_idempotent_witness :
    refresh_profile_period_state c7s 7 ⟨2026, 1, 20⟩ = .ok c7s2 ∧
    refresh_profile_period_state c7s2 7 ⟨2026, 1, 20⟩ = .ok c7s2 :=
  ⟨rfl, C7_refresh_profile_period_state_idempotent c7s 7 ⟨2026, 1, 20⟩ c7s2 rfl⟩

/-! ## C9: `start_new_day` is a ledger-neutral backfill -/

/-- Erases exactly the fields C9 allows `start_new_day` to mutate: the daily
streak/backfill fields, plus the habit counter that the final
`refresh_profile_period_state` call may reset. -/
def erase_rollover_fields (t : Task) : Task :=
  { t with
    current_streak := 0
    best_streak := 0
    last_completion_period := none
    current_count := 0 }

/-- The backfill step changes only the rollover fields. -/
theorem update_daily_backfill_frame (today : Date) (t t2 : Task)
    (h : update_daily_backfill today t = some t2) :
    erase_rollover_fields t2 = erase_rollover_fields t := by
  unfold update_daily_backfill at h
  dsimp only at h
  split_ifs at h
  injection h with h2
  subst h2
  rfl

/-- The daily rollover of the refresh pass changes only `current_streak`. -/
theorem refresh_daily_rollover_erase (today : Date) (t : Task) :
    erase_rollover_fields (refresh_daily_rollover today t) = erase_rollover_fields t := by
  unfold refresh_daily_rollover
  cases t.last_completion_period <;> dsimp only <;> split_ifs <;> rfl

/-- The habit reset of the refresh pass changes only `current_count`. -/
theorem apply_habit_reset_erase (today : Date) (t : Task) :
    erase_rollover_fields (apply_habit_reset_if_needed today t) = erase_rollover_fields t := by
  unfold apply_habit_reset_if_needed
  cases hcc : t.count_reset_cadence with
  | none => rfl
  | some c =>
    dsimp only
    split_ifs <;> simp [erase_rollover_fields, hcc]

/-- Per-task refresh changes only the rollover fields. -/
theorem refresh_task_erase (today : Date) (pid : Nat) (t : Task) :
    erase_rollover_fields (refresh_task today pid t) = erase_rollover_fields t := by
  unfold refresh_task
  split_ifs
  · exact refresh_daily_rollover_erase today t
  · exact apply_habit_reset_erase today t
  · rfl

/-- The per-index predicate counted by the `start_new_day` loop: a checked
daily of the profile whose backfill guards let the update through. -/
def backfill_hits (checked : List Nat) (pid : Nat) (today : Date) (p : Nat × Task) : Bool :=
  decide (p.1 ∈ checked ∧ p.2.profile_id = pid ∧ p.2.task_type = TaskType.daily)
    && (update_daily_backfill today p.2).isSome

/-- The `start_new_day` loop leaves the non-rollover fields of every task
unchanged and returns exactly the number of indexed tasks satisfying
[[backfill_hits]]. -/
theorem start_new_day_loop_spec (checked : List Nat) (pid : Nat) (today : Date) :
    ∀ (l : List Task) (i : Nat),
      (start_new_day_loop checked pid today i l).1.map erase_rollover_fields
          = l.map erase_rollover_fields ∧
      (start_new_day_loop checked pid today i l).2
          = (List.enumFrom i l).countP (backfill_hits checked pid today) := by
  intro l
  induction l with
  | nil => intro i; exact ⟨rfl, rfl⟩
  | cons t ts ih =>
    intro i
    obtain ⟨ih1, ih2⟩ := ih (i + 1)
    unfold start_new_day_loop
    dsimp only
    by_cases hc : i ∈ checked ∧ t.profile_id = pid ∧ t.task_type = TaskType.daily
    · rw [if_pos hc]
      cases hub : update_daily_backfill today t with
      | none =>
        have hpred : backfill_hits checked pid today (i, t) = false := by
          unfold backfill_hits
          rw [hub]
          simp
        dsimp only
        refine ⟨by simp only [List.map_cons, ih1], ?_⟩
        rw [show List.enumFrom i (t :: ts) = (i, t) :: List.enumFrom (i + 1) ts from rfl,
          List.countP_cons, hpred, ih2]
        simp
      | some t2 =>
        have hpred : backfill_hits checked pid today (i, t) = true := by
          unfold backfill_hits
          rw [decide_eq_true hc, Bool.true_and, hub]
          rfl
        dsimp only
        refine ⟨?_, ?_⟩
        · simp only [List.map_cons, ih1, update_daily_backfill_frame today t t2 hub]
        · rw [show List.enumFrom i (t :: ts) = (i, t) :: List.enumFrom (i + 1) ts from rfl,
            List.countP_cons, hpred, ih2]
          simp
    · rw [if_neg hc]
      have hpred : backfill_hits checked pid today (i, t) = false := by
        unfold backfill_hits
        rw [decide_eq_false hc, Bool.false_and]
      dsimp only
      refine ⟨by simp only [List.map_cons, ih1], ?_⟩
      rw [show List.enumFrom i (t :: ts) = (i, t) :: List.enumFrom (i + 1) ts from rfl,
        List.countP_cons, hpred, ih2]
      simp

/-- C9: a successful `start_new_day` creates no log entry and leaves the
profile (hence `gold_balance`) untouched; every task keeps all of its fields
other than `current_streak`, `best_streak`, `last_completion_period` and the
refresh-reset `current_count`; and the returned count is exactly the number
of checked dailies of the profile whose backfill fired. -/
theorem C9_start_new_day_ledger_neutral (s : State) (userId : Nat)
    (checked : List Nat) (today : Date) :
    ∀ s2 n, start_new_day s userId checked today = .ok (s2, n) →
      s2.logs = s.logs ∧
      s2.profile = s.profile ∧
      s2.tasks.map erase_rollover_fields = s.tasks.map erase_rollover_fields ∧
      n = (List.enumFrom 0 s.tasks).countP (backfill_hits checked s.profile.id today) := by
  intro s2 n hok
  unfold start_new_day at hok
  by_cases h1 : s.profile.account_id ≠ userId
  · rw [if_pos h1] at hok
    exact absurd hok (by simp)
  · rw [if_neg h1] at hok
    unfold refresh_profile_period_state at hok
    dsimp only at hok
    rw [if_neg h1] at hok
    dsimp only at hok
    injection hok with hpair
    injection hpair with hs2 hn
    subst hs2
    subst hn
    refine ⟨rfl, rfl, ?_, (start_new_day_loop_spec checked s.profile.id today s.tasks 0).2⟩
    rw [List.map_map]
    calc ((start_new_day_loop checked s.profile.id today 0 s.tasks).1).map
          (erase_rollover_fields ∘ refresh_task today s.profile.id)
        = ((start_new_day_loop checked s.profile.id today 0 s.tasks).1).map
          erase_rollover_fields :=
          List.map_congr_left fun t _ => refresh_task_erase today s.profile.id t
      _ = s.tasks.map erase_rollover_fields :=
          (start_new_day_loop_spec checked s.profile.id today s.tasks 0).1

/-- C9 witness fixture: a checked daily whose last completion is ten days
stale, so the backfill fires. -/
def c9task : Task :=
  { profile_id := 1
    task_type := .daily
    title := "Journal"
    gold_delta := 4
    created_at := ⟨2026, 1, 1⟩
    last_action_at := some ⟨2026, 1, 10⟩
    total_actions_count := 3
    current_count := 0
    count_increment := 1
    count_reset_cadence := none
    repeat_cadence := some .day
    repeat_every := 1
    current_streak := 3
    best_streak := 3
    streak_goal := 0
    last_completion_period := some ⟨2026, 1, 10⟩
    is_done := false
    completed_at := none
    is_repeatable := false
    is_claimed := false
    claimed_at := none
    claim_count := 0
    streak_bonus_rules := [] }

def c9s : State :=
  { profile := { id := 1, account_id := 7, gold_balance := 5 }
    tasks := [c9task]
    logs := [] }

/-- The state produced by running `start_new_day` on [[c9s]]. -/
def c9s2 : State :=
  { c9s with
    tasks :=
      ((start_new_day_loop [0] c9s.profile.id ⟨2026, 1, 20⟩ 0 c9s.tasks).1).map
        (refresh_task ⟨2026, 1, 20⟩ c9s.profile.id) }

set_option maxRecDepth 100000 in
/-- Witness for C9: `start_new_day` on the stale checked daily succeeds,
reports one updated task, and the frame conditions hold for the result. -/
theorem C9_start_new_day_ledger_neutral_witness :
    start_new_day c9s 7 [0] ⟨2026, 1, 20⟩ = .ok (c9s2, 1) ∧
    (c9s2.logs = c9s.logs ∧
     c9s2.profile = c9s.profile ∧
     c9s2.tasks.map erase_rollover_fields = c9s.tasks.map erase_rollover_fields ∧
     1 = (List.enumFrom 0 c9s.tasks).countP (backfill_hits [0] c9s.profile.id ⟨2026, 1, 20⟩)) :=
  ⟨rfl, C9_start_new_day_ledger_neutral c9s 7 [0] ⟨2026, 1, 20⟩ c9s2 1 rfl⟩

/-! ## C1: the ledger invariant -/

/-- The `user_gold` audit clause: the most recently appended log entry (if
any) records the current balance. -/
def head_gold_ok (s : State) : Prop :=
  match s.logs with
  | [] => True
  | l :: _ => l.user_gold = s.profile.gold_balance

/-- The ledger invariant of C1, together with the data-model facts it rides
on: the balance is cents-quantized (2-dp `DecimalField`), every task's
`gold_delta` is cents-quantized likewise, the balance equals the sum of the
logged deltas, and the newest log's `user_gold` equals the balance. -/
def LedgerInv (s : State) : Prop :=
  IsCents s.profile.gold_balance ∧
  (∀ t ∈ s.tasks, IsCents t.gold_delta) ∧
  s.profile.gold_balance = (s.logs.map LogEntry.gold_delta).sum ∧
  head_gold_ok s

theorem habit_increment_preserves (s : State) (i u : Nat) (b : Option ℚ) (ts : Date)
    (h : LedgerInv s) :
    ∀ s2, habit_increment s i u b ts = .ok s2 → LedgerInv s2 := by
  intro s2 hok
  obtain ⟨hbal, htasks, hsum, _⟩ := h
  cases ht : s.tasks[i]? with
  | none =>
    simp only [habit_increment, ht] at hok
    exact absurd hok (by simp)
  | some task =>
    simp only [habit_increment, ht] at hok
    by_cases h1 : task.profile_id ≠ s.profile.id
    · rw [if_pos h1] at hok; exact absurd hok (by simp)
    · rw [if_neg h1] at hok
      by_cases h2 : s.profile.account_id ≠ u
      · rw [if_pos h2] at hok; exact absurd hok (by simp)
      · rw [if_neg h2] at hok
        by_cases h3 : task.task_type ≠ TaskType.habit
        · rw [if_pos h3] at hok; exact absurd hok (by simp)
        · rw [if_neg h3] at hok
          by_cases h4 : ¬ habit_save_valid s task (b.getD task.count_increment)
          · rw [if_pos h4] at hok; exact absurd hok (by simp)
          · rw [if_neg h4] at hok
            injection hok with hs2
            subst hs2
            refine ⟨isCents_to_cents _, ?_, ?_, ?_⟩
            · intro t htm
              rcases List.mem_or_eq_of_mem_set htm with hm | he
              · exact htasks t hm
              · subst he
                exact htasks task (List.getElem?_mem ht)
            · dsimp only
              simp only [List.map_cons, List.sum_cons]
              rw [to_cents_add_of_isCents hbal (isCents_to_cents _), hsum]
              ring
            · dsimp only [head_gold_ok]

theorem daily_complete_preserves (s : State) (i u : Nat) (ts : Date) (cp : Option Date)
    (h : LedgerInv s) :
    ∀ s2, daily_complete s i u ts cp = .ok s2 → LedgerInv s2 := by
  intro s2 hok
  obtain ⟨hbal, htasks, hsum, _⟩ := h
  cases ht : s.tasks[i]? with
  | none =>
    simp only [daily_complete, ht] at hok
    exact absurd hok (by simp)
  | some task =>
    simp only [daily_complete, ht] at hok
    by_cases h1 : task.profile_id ≠ s.profile.id
    · rw [if_pos h1] at hok; exact absurd hok (by simp)
    · rw [if_neg h1] at hok
      by_cases h2 : s.profile.account_id ≠ u
      · rw [if_pos h2] at hok; exact absurd hok (by simp)
      · rw [if_neg h2] at hok
        by_cases h3 : task.task_type ≠ TaskType.daily
        · rw [if_pos h3] at hok; exact absurd hok (by simp)
        · rw [if_neg h3] at hok
          by_cases h4 : task.last_completion_period
              = some (get_daily_period_start_for_task task (cp.getD ts))
          · rw [if_pos h4] at hok; exact absurd hok (by simp)
          · rw [if_neg h4] at hok
            injection hok with hs2
            subst hs2
            refine ⟨isCents_to_cents _, ?_, ?_, ?_⟩
            · intro t htm
              rcases List.mem_or_eq_of_mem_set htm with hm | he
              · exact htasks t hm
              · subst he
                exact htasks task (List.getElem?_mem ht)
            · dsimp only
              simp only [List.map_cons, List.sum_cons]
              rw [to_cents_add_of_isCents hbal (isCents_to_cents _), hsum]
              ring
            · dsimp only [head_gold_ok]

theorem todo_complete_preserves (s : State) (i u : Nat) (ts : Date)
    (h : LedgerInv s) :
    ∀ s2, todo_complete s i u ts = .ok s2 → LedgerInv s2 := by
  intro s2 hok
  obtain ⟨hbal, htasks, hsum, _⟩ := h
  cases ht : s.tasks[i]? with
  | none =>
    simp only [todo_complete, ht] at hok
    exact absurd hok (by simp)
  | some task =>
    simp only [todo_complete, ht] at hok
    by_cases h1 : task.profile_id ≠ s.profile.id
    · rw [if_pos h1] at hok; exact absurd hok (by simp)
    · rw [if_neg h1] at hok
      by_cases h2 : s.profile.account_id ≠ u
      · rw [if_pos h2] at hok; exact absurd hok (by simp)
      · rw [if_neg h2] at hok
        by_cases h3 : task.task_type ≠ TaskType.todo
        · rw [if_pos h3] at hok; exact absurd hok (by simp)
        · rw [if_neg h3] at hok
          by_cases h4 : task.is_done = true
          · rw [if_pos h4] at hok; exact absurd hok (by simp)
          · rw [if_neg h4] at hok
            injection hok with hs2
            subst hs2
            refine ⟨isCents_to_cents _, ?_, ?_, ?_⟩
            · intro t htm
              rcases List.mem_or_eq_of_mem_set htm with hm | he
              · exact htasks t hm
              · subst he
                exact htasks task (List.getElem?_mem ht)
            · dsimp only
              simp only [List.map_cons, List.sum_cons]
              rw [to_cents_add_of_isCents hbal (isCents_to_cents _), hsum]
              ring
            · dsimp only [head_gold_ok]

theorem reward_claim_preserves (s : State) (i u : Nat) (ts : Date)
    (h : LedgerInv s) :
    ∀ s2, reward_claim s i u ts = .ok s2 → LedgerInv s2 := by
  intro s2 hok
  obtain ⟨hbal, htasks, hsum, _⟩ := h
  cases ht : s.tasks[i]? with
  | none =>
    simp only [reward_claim, ht] at hok
    exact absurd hok (by simp)
  | some task =>
    have hdelta : IsCents task.gold_delta := htasks task (List.getElem?_mem ht)
    simp only [reward_claim, ht] at hok
    by_cases h1 : task.profile_id ≠ s.profile.id
    · rw [if_pos h1] at hok; exact absurd hok (by simp)
    · rw [if_neg h1] at hok
      by_cases h2 : s.profile.account_id ≠ u
      · rw [if_pos h2] at hok; exact absurd hok (by simp)
      · rw [if_neg h2] at hok
        by_cases h3 : task.task_type ≠ TaskType.reward
        · rw [if_pos h3] at hok; exact absurd hok (by simp)
        · rw [if_neg h3] at hok
          by_cases h4 : 0 ≤ task.gold_delta
          · rw [if_pos h4] at hok; exact absurd hok (by simp)
          · rw [if_neg h4] at hok
            by_cases h5 : ¬task.is_repeatable ∧ task.is_claimed
            · rw [if_pos h5] at hok; exact absurd hok (by simp)
            · rw [if_neg h5] at hok
              by_cases h6 : to_cents (s.profile.gold_balance + task.gold_delta) < 0
              · rw [if_pos h6] at hok; exact absurd hok (by simp)
              · rw [if_neg h6] at hok
                injection hok with hs2
                subst hs2
                refine ⟨isCents_to_cents _, ?_, ?_, ?_⟩
                · intro t htm
                  rcases List.mem_or_eq_of_mem_set htm with hm | he
                  · exact htasks t hm
                  · subst he
                    exact hdelta
                · dsimp only
                  simp only [List.map_cons, List.sum_cons]
                  rw [to_cents_add_of_isCents hbal hdelta, to_cents_of_isCents hdelta,
                    hsum]
                  ring
                · dsimp only [head_gold_ok]

theorem log_activity_duration_preserves (s : State) (u : Nat) (d : Option ℚ)
    (title : String) (ts : Date) (ti ri : Option Nat) (h : LedgerInv s) :
    ∀ s2, log_activity_duration s u d title ts ti ri = .ok s2 → LedgerInv s2 := by
  intro s2 hok
  obtain ⟨hbal, htasks, hsum, _⟩ := h
  unfold log_activity_duration at hok
  by_cases h1 : s.profile.account_id ≠ u
  · rw [if_pos h1] at hok; exact absurd hok (by simp)
  · rw [if_neg h1] at hok
    cases d with
    | none =>
      dsimp only at hok
      exact absurd hok (by simp)
    | some dur =>
      dsimp only at hok
      by_cases h2 : dur ≤ 0
      · rw [if_pos h2] at hok; exact absurd hok (by simp)
      · rw [if_neg h2] at hok
        by_cases h3 : title.trim = ""
        · rw [if_pos h3] at hok; exact absurd hok (by simp)
        · rw [if_neg h3] at hok
          cases hr : resolve_task_ref s ti with
          | error e => rw [hr] at hok; exact absurd hok (by simp)
          | ok v =>
            rw [hr] at hok
            cases hr2 : resolve_reward_ref s ri with
            | error e => rw [hr2] at hok; exact absurd hok (by simp)
            | ok v2 =>
              rw [hr2] at hok
              dsimp only at hok
              injection hok with hs2
              subst hs2
              refine ⟨hbal, htasks, ?_, ?_⟩
              · dsimp only
                simp only [List.map_cons, List.sum_cons]
                rw [hsum]
                ring
              · dsimp only [head_gold_ok]
                exact to_cents_of_isCents hbal

/-- Each action attempt (success or rolled-back failure) preserves the
ledger invariant. -/
theorem Action_apply_preserves (u : Nat) (s : State) (a : Action)
    (h : LedgerInv s) : LedgerInv (Action.apply u s a) := by
  unfold Action.apply
  cases hstep : Action.step u s a with
  | error e => exact h
  | ok s2 =>
    cases a with
    | habit_increment i b ts => exact habit_increment_preserves s i u b ts h s2 hstep
    | daily_complete i ts cp => exact daily_complete_preserves s i u ts cp h s2 hstep
    | todo_complete i ts => exact todo_complete_preserves s i u ts h s2 hstep
    | reward_claim i ts => exact reward_claim_preserves s i u ts h s2 hstep
    | log_activity_duration d title ts ti ri =>
      exact log_activity_duration_preserves s u d title ts ti ri h s2 hstep

/-- The invariant is preserved by any action sequence. -/
theorem applyAll_preserves (u : Nat) (acts : List Action) :
    ∀ s, LedgerInv s → LedgerInv (Action.applyAll u s acts) := by
  induction acts with
  | nil => intro s h; exact h
  | cons a rest ih =>
    intro s h
    simp only [Action.applyAll, List.foldl_cons]
    exact ih (Action.apply u s a) (Action_apply_preserves u s a h)

/-- C1: from any state satisfying the ledger invariant (in particular a
fresh profile: cents balance equal to the sum of an empty log list), after
any sequence of core-action attempts the balance equals the sum of the
logged `gold_delta`s and equals the `user_gold` of the most recent log. -/
theorem C1_ledger_invariant (u : Nat) (s0 : State) (acts : List Action)
    (h0 : LedgerInv s0) :
    LedgerInv (Action.applyAll u s0 acts) ∧
    (Action.applyAll u s0 acts).profile.gold_balance
        = ((Action.applyAll u s0 acts).logs.map LogEntry.gold_delta).sum ∧
    head_gold_ok (Action.applyAll u s0 acts) := by
  have h := applyAll_preserves u acts s0 h0
  exact ⟨h, h.2.2.1, h.2.2.2⟩

/-- C1 witness fixtures: a fresh profile with a habit and a repeatable
reward, exercised by two earns, one claim, and one activity log. -/
def c1habit : Task :=
  { profile_id := 1
    task_type := .habit
    title := "Hydrate"
    gold_delta := 2
    created_at := ⟨2026, 1, 1⟩
    last_action_at := none
    total_actions_count := 0
    current_count := 0
    count_increment := 1
    count_reset_cadence := none
    repeat_cadence := none
    repeat_every := 1
    current_streak := 0
    best_streak := 0
    streak_goal := 0
    last_completion_period := none
    is_done := false
    completed_at := none
    is_repeatable := false
    is_claimed := false
    claimed_at := none
    claim_count := 0
    streak_bonus_rules := [] }

def c1reward : Task :=
  { c1habit with
    task_type := .reward
    title := "Coffee"
    gold_delta := -3
    is_repeatable := true }

def c1s : State :=
  { profile := { id := 1, account_id := 7, gold_balance := 0 }
    tasks := [c1habit, c1reward]
    logs := [] }

def c1acts : List Action :=
  [ .habit_increment 0 none ⟨2026, 1, 2⟩
  , .habit_increment 0 none ⟨2026, 1, 3⟩
  , .reward_claim 1 ⟨2026, 1, 4⟩
  , .log_activity_duration (some 60) "Reading" ⟨2026, 1, 4⟩ none (some 1) ]

/-- Witness for C1: the fresh two-task profile satisfies the invariant, and
after the four-action sequence the invariant (balance = logged sum =
newest `user_gold`) still holds. -/
theorem C1_ledger_invariant_witness :
    LedgerInv c1s ∧
    (LedgerInv (Action.applyAll 7 c1s c1acts) ∧
     (Action.applyAll 7 c1s c1acts).profile.gold_balance
         = ((Action.applyAll 7 c1s c1acts).logs.map LogEntry.gold_delta).sum ∧
     head_gold_ok (Action.applyAll 7 c1s c1acts)) := by
  have h0 : LedgerInv c1s := by
    refine ⟨by norm_num [c1s, IsCents], ?_, by simp [c1s], ?_⟩
    · intro t htm
      have h2 : t = c1habit ∨ t = c1reward := by simpa [c1s] using htm
      rcases h2 with h2 | h2 <;> subst h2 <;> norm_num [IsCents, c1habit, c1reward]
    · exact trivial
  exact ⟨h0, C1_ledger_invariant 7 c1s c1acts h0⟩

end Core
